import Mathlib

/-!
# Verification development for `sosalejandro/observability`

Shallow embedding of `log_options.go`, `log_values.go`, `log_builder.go`,
`observability.go` and `logger/zap/logger.go`.

* Go slices are modelled with their sharing: a slice is a header
  (backing array, length, capacity) and the backing arrays live in a `Store`.
  `append` writes in place while capacity is left and moves to a fresh array
  otherwise, so aliasing between a builder and the values it has built is
  visible in the model.
* Pointer receivers (`*LogValuesBuilder`, `*ObservabilityContext`) become
  explicit state passing: a method takes the record and returns the updated one.
* Calls on the span, on the injected logger and of the caller's `tracingSetup`
  are recorded, in program order, in the effect list of a `Run`; a `Run` whose
  result is `none` is a Go panic, and the effects listed are those that happened
  before it.
-/

namespace Observability

/-! ## Go slices over a store of backing arrays -/

/-- Slice header: identity of the backing array, length and capacity. The
offset is always zero because the code never reslices. -/
structure Slice where
  arr : Nat
  len : Nat
  cap : Nat
deriving DecidableEq, Repr

/-- The nil slice: no backing array, length and capacity zero. -/
def Slice.null : Slice := ⟨0, 0, 0⟩

/-- The backing arrays allocated so far. `cells a` holds the cells of array `a`
that have been written, `next` is the identity the next allocation gets and
`grow` is the allocator's capacity policy (it depends on the Go runtime and on
the element size, so it is left arbitrary). -/
structure Store (T : Type) where
  cells : Nat → List T
  next : Nat
  grow : Nat → Nat

/-- The elements seen through a slice header. -/
def Store.read {T : Type} (st : Store T) (s : Slice) : List T :=
  (st.cells s.arr).take s.len

/-- Go `append(s, x)`: with spare capacity the element is written into the
backing array at index `len(s)`; otherwise a fresh array is allocated, the
elements are copied and `x` is put after them. -/
def Store.append {T : Type} (st : Store T) (s : Slice) (x : T) : Store T × Slice :=
  if s.len < s.cap then
    ({ st with
        cells := fun i =>
          if i = s.arr then (st.cells i).take s.len ++ x :: (st.cells i).drop (s.len + 1)
          else st.cells i },
     { s with len := s.len + 1 })
  else
    ({ st with
        cells := fun i => if i = st.next then st.read s ++ [x] else st.cells i
        next := st.next + 1 },
     ⟨st.next, s.len + 1, max (s.len + 1) (st.grow s.cap)⟩)

/-- An empty store with the doubling capacity policy, for concrete runs. -/
def Store.empty (T : Type) : Store T := ⟨fun _ => [], 0, fun c => 2 * c⟩

/-! ## log_options.go -/

/-- Go `LogValueOption[T]`: an attribute and three level flags. -/
structure LogValueOption (T : Type) where
  Attr : T
  debug : Bool
  info : Bool
  err : Bool
deriving DecidableEq, Repr

/-- Go `NewLogValueOption`: only `Attr` is given, the flags keep their zero value. -/
def NewLogValueOption {T : Type} (attr : T) : LogValueOption T :=
  { Attr := attr, debug := false, info := false, err := false }

/-- Go `(*LogValueOption).WithDebug`. -/
def LogValueOption.WithDebug {T : Type} (o : LogValueOption T) : LogValueOption T :=
  { o with debug := true }

/-- Go `(*LogValueOption).WithInfo`. -/
def LogValueOption.WithInfo {T : Type} (o : LogValueOption T) : LogValueOption T :=
  { o with info := true }

/-- Go `(*LogValueOption).WithError`. -/
def LogValueOption.WithError {T : Type} (o : LogValueOption T) : LogValueOption T :=
  { o with err := true }

/-- Go `LogValuesOptions[T]`, a slice of pointers to options. It is only read
by the code modelled here, so it is the list of the options pointed to. -/
abbrev LogValuesOptions (T : Type) := List (LogValueOption T)

/-! ## log_values.go -/

/-- Go `error` interface value: `none` is nil, `some m` an error with message `m`. -/
abbrev GoError := Option String

/-- Go `LogValues[T]`. The three value lists are slice headers; their elements
are in the store. -/
structure LogValues where
  msg : String
  err : GoError
  debugValues : Slice
  errorValues : Slice
  infoValues : Slice
deriving DecidableEq, Repr

/-- Go `LogValues.Msg`. -/
def LogValues.Msg (lv : LogValues) : String := lv.msg

/-- Go `LogValues.Err`. -/
def LogValues.Err (lv : LogValues) : GoError := lv.err

/-- Go `LogValues.DebugValues`. -/
def LogValues.DebugValues (lv : LogValues) : Slice := lv.debugValues

/-- Go `LogValues.ErrorValues`. -/
def LogValues.ErrorValues (lv : LogValues) : Slice := lv.errorValues

/-- Go `LogValues.InfoValues`. -/
def LogValues.InfoValues (lv : LogValues) : Slice := lv.infoValues

/-- Go `LogValuesBuilder[T]`. -/
structure LogValuesBuilder where
  msg : String
  err : GoError
  infoValues : Slice
  debugValues : Slice
  errorValues : Slice
deriving DecidableEq, Repr

/-- Go `(*LogValuesBuilder).WithMsg`. -/
def LogValuesBuilder.WithMsg (b : LogValuesBuilder) (msg : String) : LogValuesBuilder :=
  { b with msg := msg }

/-- Go `(*LogValuesBuilder).WithInfoValue`: `b.infoValues = append(b.infoValues, field)`. -/
def LogValuesBuilder.WithInfoValue {T : Type} (st : Store T) (b : LogValuesBuilder) (field : T) :
    Store T × LogValuesBuilder :=
  ((st.append b.infoValues field).1, { b with infoValues := (st.append b.infoValues field).2 })

/-- Go `(*LogValuesBuilder).WithDebugValue`: `b.debugValues = append(b.debugValues, field)`. -/
def LogValuesBuilder.WithDebugValue {T : Type} (st : Store T) (b : LogValuesBuilder) (field : T) :
    Store T × LogValuesBuilder :=
  ((st.append b.debugValues field).1, { b with debugValues := (st.append b.debugValues field).2 })

/-- Go `(*LogValuesBuilder).WithErrorValue`: `b.errorValues = append(b.errorValues, field)`. -/
def LogValuesBuilder.WithErrorValue {T : Type} (st : Store T) (b : LogValuesBuilder) (field : T) :
    Store T × LogValuesBuilder :=
  ((st.append b.errorValues field).1, { b with errorValues := (st.append b.errorValues field).2 })

/-- Go `(*LogValuesBuilder).Build`: the fields are copied, slice headers included. -/
def LogValuesBuilder.Build (b : LogValuesBuilder) : LogValues :=
  { msg := b.msg
    err := b.err
    infoValues := b.infoValues
    debugValues := b.debugValues
    errorValues := b.errorValues }

/-- Go `NewLogValuesBuilder`: the zero builder. -/
def NewLogValuesBuilder : LogValuesBuilder :=
  { msg := "", err := none, infoValues := Slice.null, debugValues := Slice.null,
    errorValues := Slice.null }

/-- One iteration of the loop of `FactoryLogValuesBuilder`: the `switch` takes
the first case that holds, in the order debug, err, info, and does nothing when
none holds. -/
def factoryStep {T : Type} (acc : Store T × LogValuesBuilder) (option : LogValueOption T) :
    Store T × LogValuesBuilder :=
  if option.debug then LogValuesBuilder.WithDebugValue acc.1 acc.2 option.Attr
  else if option.err then LogValuesBuilder.WithErrorValue acc.1 acc.2 option.Attr
  else if option.info then LogValuesBuilder.WithInfoValue acc.1 acc.2 option.Attr
  else acc

/-- Go `FactoryLogValuesBuilder`. -/
def FactoryLogValuesBuilder {T : Type} (st : Store T) (options : LogValuesOptions T) :
    Store T × LogValuesBuilder :=
  options.foldl factoryStep (st, NewLogValuesBuilder)

/-! ## log_builder.go -/

/-- Go `LogBuilder[T]`, an empty struct. -/
structure LogBuilder where
deriving DecidableEq, Repr

/-- Go `NewLogBuilder`. -/
def NewLogBuilder : LogBuilder := {}

/-- Go `(*LogBuilder).CreateLogValueOption`. -/
def LogBuilder.CreateLogValueOption {T : Type} (_lb : LogBuilder) (attr : T) : LogValueOption T :=
  NewLogValueOption attr

/-- Go `(*LogBuilder).FactoryLogValuesBuilder`. -/
def LogBuilder.FactoryLogValuesBuilder {T : Type} (_lb : LogBuilder) (st : Store T)
    (options : LogValuesOptions T) : Store T × LogValuesBuilder :=
  Observability.FactoryLogValuesBuilder st options

/-- Go `(*LogBuilder).CreateLogValuesBuilder`. -/
def LogBuilder.CreateLogValuesBuilder (_lb : LogBuilder) : LogValuesBuilder :=
  NewLogValuesBuilder

/-! ## OpenTelemetry and reflection, as far as observability.go uses them -/

/-- Go `context.Context` values, told apart by an identity. -/
structure Context where
  id : Nat
deriving DecidableEq, Repr

/-- The table of `encoding/hex`. -/
def hextable : List Char := "0123456789abcdef".toList

/-- Go `hex.EncodeToString`: two characters per byte, high nibble first. -/
def hexEncode (bs : List (Fin 256)) : String :=
  String.mk (bs.flatMap fun b => [hextable.getD (b.val / 16) '0', hextable.getD (b.val % 16) '0'])

/-- OpenTelemetry `trace.TraceID`, a `[16]byte`. -/
structure TraceID where
  bytes : List (Fin 256)
  size : bytes.length = 16
deriving DecidableEq

/-- OpenTelemetry `trace.SpanID`, a `[8]byte`. -/
structure SpanID where
  bytes : List (Fin 256)
  size : bytes.length = 8
deriving DecidableEq

/-- OpenTelemetry `TraceID.String`: the hex encoding of the sixteen bytes. -/
def TraceID.String (t : TraceID) : String := hexEncode t.bytes

/-- OpenTelemetry `SpanID.String`: the hex encoding of the eight bytes. -/
def SpanID.String (s : SpanID) : String := hexEncode s.bytes

/-- OpenTelemetry `trace.SpanContext`, the two identifiers the code reads. -/
structure SpanContext where
  traceID : TraceID
  spanID : SpanID
deriving DecidableEq

/-- A non-nil `trace.Span`: the identity of the span object and its span context. -/
structure Span where
  id : Nat
  spanContext : SpanContext
deriving DecidableEq

/-- OpenTelemetry `attribute.KeyValue` as built by `attribute.String`. -/
structure KeyValue where
  key : String
  value : String
deriving DecidableEq, Repr

/-- OpenTelemetry `trace.EventOption` values. -/
inductive EventOption where
  | WithAttributes (attrs : List KeyValue)
  | WithTimestamp (unixNano : Int)
  | WithStackTrace (b : Bool)
deriving DecidableEq, Repr

/-- OpenTelemetry `trace.SpanStartOption` values; they are only handed on to the tracer. -/
structure SpanStartOption where
  tag : Nat
deriving DecidableEq, Repr

/-- The tracing backend reached through the held context:
`Start ctx serviceName name opts` stands for
`trace.SpanFromContext(ctx).TracerProvider().Tracer(serviceName).Start(ctx, name, opts...)`.
It returns the derived context and a non-nil span, as OpenTelemetry tracers do. -/
structure Tracer where
  Start : Context → String → String → List SpanStartOption → Context × Span

/-- A non-nil `ObservabilityLogger[T]` value, told apart by an identity. -/
structure Logger where
  id : Nat
deriving DecidableEq, Repr

/-- Go `TraceValues`. -/
structure TraceValues where
  TraceId : String
  SpanId : String
deriving DecidableEq, Repr

/-- Calls that leave the code: methods of the span, methods of the injected
logger, and the caller's `tracingSetup` function. -/
inductive Effect where
  | AddEvent (span : Span) (name : String) (options : List EventOption)
  | RecordError (span : Span) (err : GoError) (options : List EventOption)
  | LogInfo (logger : Logger) (lv : LogValues)
  | LogError (logger : Logger) (lv : LogValues)
  | LogDebug (logger : Logger) (lv : LogValues)
  | LogInfoContext (logger : Logger) (ctx : Context) (lv : LogValues)
  | LogErrorContext (logger : Logger) (ctx : Context) (lv : LogValues)
  | LogDebugContext (logger : Logger) (ctx : Context) (lv : LogValues)
  | TracingSetup (name : String) (traceValues : TraceValues)
deriving DecidableEq

/-- Whether an effect is a call of a method of the injected logger. -/
def Effect.isLoggerCall : Effect → Bool
  | .AddEvent _ _ _ => false
  | .RecordError _ _ _ => false
  | .TracingSetup _ _ => false
  | _ => true

/-- The outcome of running a piece of Go code: the external calls it made, in
order, and its result; `none` as result is a panic. -/
structure Run (α : Type) where
  effects : List Effect
  result : Option α

/-- Sequencing: the second part runs only when the first did not panic. -/
def Run.bind {α β : Type} (m : Run α) (f : α → Run β) : Run β :=
  match m.result with
  | none => ⟨m.effects, none⟩
  | some a => ⟨m.effects ++ (f a).effects, (f a).result⟩

instance : Monad Run where
  pure a := ⟨[], some a⟩
  bind := Run.bind

/-- A Go panic. -/
def Run.panic {α : Type} : Run α := ⟨[], none⟩

/-- One external call. -/
def Run.emit (e : Effect) : Run Unit := ⟨[e], some ()⟩

/-- Go `reflect.Kind`. -/
inductive Kind where
  | Invalid | Bool | Int | Int8 | Int16 | Int32 | Int64
  | Uint | Uint8 | Uint16 | Uint32 | Uint64 | Uintptr
  | Float32 | Float64 | Complex64 | Complex128
  | Array | Chan | Func | Interface | Map | Ptr | Slice | String | Struct | UnsafePointer
deriving DecidableEq, Repr

/-- What `isNil` needs to know of the attribute type `T`: its zero value,
`kindOf v` for `reflect.TypeOf(v).Kind()` (`none` when `reflect.TypeOf(v)` is
nil, which is the case exactly for a nil value of an interface type `T`), and
`isZero v` for `reflect.ValueOf(v).IsZero()`. -/
class GoType (T : Type) where
  zero : T
  kindOf : T → Option Kind
  isZero : T → Bool

/-- A type `T` that is not an interface type: every value has the same kind,
and `IsZero` holds of the zero value only. -/
def ConcreteType (T : Type) [GoType T] (k : Kind) : Prop :=
  (∀ v : T, GoType.kindOf v = some k) ∧ (∀ v : T, GoType.isZero v = true ↔ v = GoType.zero)

/-- Go `string` as attribute type. -/
instance : GoType String where
  zero := ""
  kindOf _ := some Kind.String
  isZero v := decide (v = "")

/-- A pointer type `*E` as attribute type: `none` is the nil pointer, `some a`
points to address `a`. -/
structure Pointer where
  addr : Option Nat
deriving DecidableEq, Repr

instance : GoType Pointer where
  zero := ⟨none⟩
  kindOf _ := some Kind.Ptr
  isZero v := v.addr.isNone

/-- An interface type as attribute type, with strings as the dynamic values:
`none` is the nil interface value, `some s` holds the string `s`. -/
structure Boxed where
  dyn : Option String
deriving DecidableEq, Repr

instance : GoType Boxed where
  zero := ⟨none⟩
  kindOf v := v.dyn.map fun _ => Kind.String
  isZero v := decide (v.dyn = some "")

/-! ## observability.go -/

/-- Go `ObservabilityContext[T]`. `span` and `logger` are interface values and
may be nil; `traceOptions` is a slice that is only ever read and replaced as a
whole, so it is the list of its elements. -/
structure ObservabilityContext (T : Type) where
  serviceName : String
  ctx : Context
  span : Option Span
  logger : Option Logger
  traceId : String
  spanId : String
  tracingFormat : T
  traceOptions : List EventOption
deriving DecidableEq

/-- Go `NewObservabilityHandler`: the fields not named keep their zero value. -/
def NewObservabilityHandler {T : Type} [GoType T] (ctx : Context) (serviceName : String)
    (logger : Option Logger) : ObservabilityContext T :=
  { serviceName := serviceName
    ctx := ctx
    span := none
    logger := logger
    traceId := ""
    spanId := ""
    tracingFormat := GoType.zero
    traceOptions := [] }

/-- Go `(*ObservabilityContext).StartSpan`. The result is the updated receiver
with the two returned values: the context, and the span whose `End` method is
the shutdown function. -/
def ObservabilityContext.StartSpan {T : Type} (tr : Tracer) (oc : ObservabilityContext T)
    (name : String) (opts : List SpanStartOption) : ObservabilityContext T × Context × Span :=
  let started := tr.Start oc.ctx oc.serviceName name opts
  let oc1 := { oc with ctx := started.1, span := some started.2 }
  let oc2 := { oc1 with traceId := started.2.spanContext.traceID.String }
  let oc3 := { oc2 with spanId := started.2.spanContext.spanID.String }
  let oc4 := { oc3 with traceOptions := [] }
  let oc5 := { oc4 with
    traceOptions := oc4.traceOptions ++
      [EventOption.WithAttributes [⟨"traceId", oc4.traceId⟩, ⟨"spanId", oc4.spanId⟩]] }
  (oc5, oc5.ctx, started.2)

/-- Go `isNil`. For a nil interface value `reflect.ValueOf(value)` is the zero
`reflect.Value`, on which `IsZero` panics. -/
def isNil {T : Type} [GoType T] (value : T) : Run Bool :=
  match GoType.kindOf value with
  | none => Run.panic
  | some valueKind => pure (GoType.isZero value && valueKind != Kind.Ptr)

/-- Go `withTraceOptions`: `append(baseOpts, opts...)`. -/
def withTraceOptions (baseOpts : List EventOption) (opts : List EventOption) : List EventOption :=
  baseOpts ++ opts

/-- Go `span.AddEvent(name, options...)` on the held span; a method call on a
nil interface value panics. -/
def spanAddEvent (span : Option Span) (name : String) (options : List EventOption) : Run Unit :=
  match span with
  | none => Run.panic
  | some sp => Run.emit (Effect.AddEvent sp name options)

/-- Go `span.RecordError(err, options...)` on the held span. -/
def spanRecordError (span : Option Span) (err : GoError) (options : List EventOption) : Run Unit :=
  match span with
  | none => Run.panic
  | some sp => Run.emit (Effect.RecordError sp err options)

/-- A method call on the held logger, given the call it makes on a non-nil logger. -/
def loggerCall (logger : Option Logger) (call : Logger → Effect) : Run Unit :=
  match logger with
  | none => Run.panic
  | some lg => Run.emit (call lg)

/-- Go `(*ObservabilityContext).GetTraceValues`. -/
def ObservabilityContext.GetTraceValues {T : Type} (oc : ObservabilityContext T) :
    TraceValues × GoError :=
  match oc.span with
  | none => ({ TraceId := "", SpanId := "" }, some "span haven't been started yet")
  | some _ => ({ TraceId := oc.traceId, SpanId := oc.spanId }, none)

/-- Go `(*ObservabilityContext).SetTracingFormat`. The result is the updated
receiver with the returned error. -/
def ObservabilityContext.SetTracingFormat {T : Type} [GoType T] (oc : ObservabilityContext T)
    (tracingSetup : String → TraceValues → T) : Run (ObservabilityContext T × GoError) := do
  let unset ← isNil oc.tracingFormat
  if !unset then
    pure (oc, some "tracing format already set")
  else
    let traceValues := oc.GetTraceValues.1
    Run.emit (Effect.TracingSetup "tracing" traceValues)
    pure ({ oc with tracingFormat := tracingSetup "tracing" traceValues }, none)

/-- Go `(*ObservabilityContext).CreateLogBuilder`. The values builder made in
the `if` is not kept; what remains of it are the arrays it allocated. -/
def ObservabilityContext.CreateLogBuilder {T : Type} [GoType T] (st : Store T)
    (oc : ObservabilityContext T) : Run (Store T × LogBuilder) :=
  let lb := NewLogBuilder
  match oc.span with
  | none => pure (st, lb)
  | some _ => do
    let unset ← isNil oc.tracingFormat
    if !unset then
      let r1 := LogValuesBuilder.WithDebugValue st lb.CreateLogValuesBuilder oc.tracingFormat
      let r2 := LogValuesBuilder.WithErrorValue r1.1 r1.2 oc.tracingFormat
      let r3 := LogValuesBuilder.WithInfoValue r2.1 r2.2 oc.tracingFormat
      pure (r3.1, lb)
    else
      pure (st, lb)

/-- Go `(*ObservabilityContext).LogInfo`. -/
def ObservabilityContext.LogInfo {T : Type} (oc : ObservabilityContext T) (lv : LogValues)
    (opts : List EventOption) : Run Unit := do
  spanAddEvent oc.span lv.Msg (withTraceOptions oc.traceOptions opts)
  loggerCall oc.logger (fun lg => Effect.LogInfo lg lv)

/-- Go `(*ObservabilityContext).LogError`. -/
def ObservabilityContext.LogError {T : Type} (oc : ObservabilityContext T) (lv : LogValues)
    (opts : List EventOption) : Run Unit := do
  spanRecordError oc.span lv.Err (withTraceOptions oc.traceOptions opts)
  loggerCall oc.logger (fun lg => Effect.LogError lg lv)

/-- Go `(*ObservabilityContext).LogDebug`. -/
def ObservabilityContext.LogDebug {T : Type} (oc : ObservabilityContext T) (lv : LogValues)
    (opts : List EventOption) : Run Unit := do
  spanAddEvent oc.span lv.Msg (withTraceOptions oc.traceOptions opts)
  loggerCall oc.logger (fun lg => Effect.LogDebug lg lv)

/-- Go `(*ObservabilityContext).LogInfoContext`. -/
def ObservabilityContext.LogInfoContext {T : Type} (oc : ObservabilityContext T) (lv : LogValues)
    (opts : List EventOption) : Run Unit := do
  spanAddEvent oc.span lv.Msg (withTraceOptions oc.traceOptions opts)
  loggerCall oc.logger (fun lg => Effect.LogInfoContext lg oc.ctx lv)

/-- Go `(*ObservabilityContext).LogErrorContext`. -/
def ObservabilityContext.LogErrorContext {T : Type} (oc : ObservabilityContext T) (lv : LogValues)
    (opts : List EventOption) : Run Unit := do
  spanRecordError oc.span lv.Err (withTraceOptions oc.traceOptions opts)
  loggerCall oc.logger (fun lg => Effect.LogErrorContext lg oc.ctx lv)

/-- Go `(*ObservabilityContext).LogDebugContext`. -/
def ObservabilityContext.LogDebugContext {T : Type} (oc : ObservabilityContext T) (lv : LogValues)
    (opts : List EventOption) : Run Unit := do
  spanAddEvent oc.span lv.Msg (withTraceOptions oc.traceOptions opts)
  loggerCall oc.logger (fun lg => Effect.LogDebugContext lg oc.ctx lv)


/-! ## Sequences of builder calls and the invariants of the slice model -/

/-- One call of a chaining method of `*LogValuesBuilder`. -/
inductive BuilderCall (T : Type) where
  | WithMsg (msg : String)
  | WithInfoValue (field : T)
  | WithDebugValue (field : T)
  | WithErrorValue (field : T)

/-- The effect of one builder call on the store and the builder. -/
def BuilderCall.run {T : Type} (w : Store T × LogValuesBuilder) :
    BuilderCall T → Store T × LogValuesBuilder
  | .WithMsg msg => (w.1, w.2.WithMsg msg)
  | .WithInfoValue field => LogValuesBuilder.WithInfoValue w.1 w.2 field
  | .WithDebugValue field => LogValuesBuilder.WithDebugValue w.1 w.2 field
  | .WithErrorValue field => LogValuesBuilder.WithErrorValue w.1 w.2 field

/-- A sequence of builder calls, first call first. -/
def runBuilderCalls {T : Type} (w : Store T × LogValuesBuilder) (calls : List (BuilderCall T)) :
    Store T × LogValuesBuilder :=
  calls.foldl BuilderCall.run w

/-- A slice header that `append` can serve from the store: the length is within
the capacity, and a header with capacity refers to an allocated array that holds
at least `len` cells. -/
def Slice.Owned {T : Type} (st : Store T) (s : Slice) : Prop :=
  s.len ≤ s.cap ∧ (0 < s.cap → s.arr < st.next ∧ s.len ≤ (st.cells s.arr).length)

/-- Two slice headers that do not share a backing array. -/
def Slice.Apart (s t : Slice) : Prop :=
  s.cap = 0 ∨ t.cap = 0 ∨ s.arr ≠ t.arr

/-- The invariant of a builder: its three slices are served by the store and
no two of them share a backing array. -/
def LogValuesBuilder.WF {T : Type} (st : Store T) (b : LogValuesBuilder) : Prop :=
  b.infoValues.Owned st ∧ b.debugValues.Owned st ∧ b.errorValues.Owned st ∧
  b.infoValues.Apart b.debugValues ∧ b.infoValues.Apart b.errorValues ∧
  b.debugValues.Apart b.errorValues

/-- The slice `t` is empty or lies in an array allocated already. -/
def Slice.Live {T : Type} (st : Store T) (t : Slice) : Prop :=
  t.len = 0 ∨ t.arr < st.next

/-- An in-place `append` to `s` does not write into the cells seen through `t`. -/
def Slice.Shielded (t s : Slice) : Prop :=
  s.len < s.cap → t.arr ≠ s.arr ∨ t.len ≤ s.len

/-- The slice `t` is out of reach of every `append` the builder `b` can do. -/
def Slice.Frozen {T : Type} (st : Store T) (b : LogValuesBuilder) (t : Slice) : Prop :=
  t.Live st ∧ t.Shielded b.infoValues ∧ t.Shielded b.debugValues ∧ t.Shielded b.errorValues

/-- What the five accessors of a `LogValues` give, the three slices read
through the store: `Msg()`, `Err()`, `InfoValues()`, `DebugValues()`,
`ErrorValues()`. -/
def LogValues.observe {T : Type} (st : Store T) (lv : LogValues) :
    String × GoError × List T × List T × List T :=
  (lv.Msg, lv.Err, st.read lv.InfoValues, st.read lv.DebugValues, st.read lv.ErrorValues)

/-! ## Sequences of handler calls -/

/-- One call of a method of `ObservabilityHandler[T]` on a context. -/
inductive HandlerCall (T : Type) where
  | StartSpan (tr : Tracer) (name : String) (opts : List SpanStartOption)
  | GetTraceValues
  | SetTracingFormat (tracingSetup : String → TraceValues → T)
  | CreateLogBuilder
  | LogInfo (lv : LogValues) (opts : List EventOption)
  | LogError (lv : LogValues) (opts : List EventOption)
  | LogDebug (lv : LogValues) (opts : List EventOption)
  | LogInfoContext (lv : LogValues) (opts : List EventOption)
  | LogErrorContext (lv : LogValues) (opts : List EventOption)
  | LogDebugContext (lv : LogValues) (opts : List EventOption)

/-- Whether the call is a `StartSpan`. -/
def HandlerCall.isStartSpan {T : Type} : HandlerCall T → Bool
  | .StartSpan _ _ _ => true
  | _ => false

/-- Whether the call is a `SetTracingFormat`. -/
def HandlerCall.isSetTracingFormat {T : Type} : HandlerCall T → Bool
  | .SetTracingFormat _ => true
  | _ => false

/-- The effect of one handler call on the store and the context; the values
the call returns to its caller are dropped. -/
def HandlerCall.run {T : Type} [GoType T] (w : Store T × ObservabilityContext T) :
    HandlerCall T → Run (Store T × ObservabilityContext T)
  | .StartSpan tr name opts => pure (w.1, (w.2.StartSpan tr name opts).1)
  | .GetTraceValues => pure w
  | .SetTracingFormat tracingSetup => do
    let r ← w.2.SetTracingFormat tracingSetup
    pure (w.1, r.1)
  | .CreateLogBuilder => do
    let r ← w.2.CreateLogBuilder w.1
    pure (r.1, w.2)
  | .LogInfo lv opts => do
    w.2.LogInfo lv opts
    pure w
  | .LogError lv opts => do
    w.2.LogError lv opts
    pure w
  | .LogDebug lv opts => do
    w.2.LogDebug lv opts
    pure w
  | .LogInfoContext lv opts => do
    w.2.LogInfoContext lv opts
    pure w
  | .LogErrorContext lv opts => do
    w.2.LogErrorContext lv opts
    pure w
  | .LogDebugContext lv opts => do
    w.2.LogDebugContext lv opts
    pure w

/-- A sequence of handler calls on one context, first call first; it stops at
the first call that panics. -/
def runHandlerCalls {T : Type} [GoType T] (w : Store T × ObservabilityContext T) :
    List (HandlerCall T) → Run (Store T × ObservabilityContext T)
  | [] => pure w
  | c :: cs => do
    let w1 ← c.run w
    runHandlerCalls w1 cs

/-! ## A concrete setting for running the code -/

/-- A logger to inject. -/
def demoLogger : Logger := ⟨7⟩

/-- A tracer that derives a new context and hands out a span with fixed identifiers. -/
def demoTracer : Tracer :=
  ⟨fun ctx _ _ _ =>
    (⟨ctx.id + 1⟩, ⟨ctx.id + 1, ⟨⟨List.replicate 16 171, rfl⟩, ⟨List.replicate 8 205, rfl⟩⟩⟩)⟩

/-- A `tracingSetup` function over string attributes. -/
def demoSetup (name : String) (tv : TraceValues) : String :=
  name ++ "=" ++ tv.TraceId ++ "/" ++ tv.SpanId

/-- A fresh context over string attributes with `demoLogger` injected. -/
def demoFresh : ObservabilityContext String :=
  NewObservabilityHandler ⟨0⟩ "svc" (some demoLogger)

/-- The fresh context after `StartSpan("op")`. -/
def demoStarted : ObservabilityContext String :=
  (demoFresh.StartSpan demoTracer "op" []).1

/-- The usage the package is made for: after `StartSpan`, set the tracing
format, take a log builder from the context, build a payload with it and log it
at info level. The result is the store, the context and the payload. -/
def demoLogLine : Run (Store String × ObservabilityContext String × LogValues) := do
  let r ← demoStarted.SetTracingFormat demoSetup
  let c ← r.1.CreateLogBuilder (Store.empty String)
  let lv := (c.2.CreateLogValuesBuilder.WithMsg "hello").Build
  r.1.LogInfo lv []
  pure (c.1, r.1, lv)

/-- The started context after `SetTracingFormat(demoSetup)`. -/
def demoFormatted : ObservabilityContext String :=
  { demoStarted with tracingFormat := demoSetup "tracing" demoStarted.GetTraceValues.1 }

/-! ## The option collection: log_options.go and log_builder.go -/

/-- Go `append(s, xs...)`: when the capacity suffices the elements are written
into the backing array from index `len(s)` on (nothing is written and the slice
is returned as it is when `xs` is empty); otherwise a fresh array is allocated,
the elements of `s` are copied and `xs` is put after them. -/
def Store.appendAll {T : Type} (st : Store T) (s : Slice) (xs : List T) : Store T × Slice :=
  if s.len + xs.length ≤ s.cap then
    ({ st with
        cells := fun i =>
          if i = s.arr then
            (st.cells i).take s.len ++ xs ++ (st.cells i).drop (s.len + xs.length)
          else st.cells i },
     { s with len := s.len + xs.length })
  else
    ({ st with
        cells := fun i => if i = st.next then st.read s ++ xs else st.cells i
        next := st.next + 1 },
     ⟨st.next, s.len + xs.length, max (s.len + xs.length) (st.grow s.cap)⟩)

/-- Go `NewLogValuesOptions`: a pointer to the empty collection
`LogValuesOptions[T]{}`. A collection is a slice of elements of a type `P`, the
pointers `*LogValueOption[T]`; here it is the slice header, the elements being
in a store of `P`. -/
def NewLogValuesOptions : Slice := ⟨0, 0, 0⟩

/-- Go `(*LogValuesOptions).Len`. -/
def LogValuesOptions.Len (lvos : Slice) : Nat := lvos.len

/-- Go `(*LogValuesOptions).AddOption`: `*lvos = append(*lvos, option)`. The
result is the updated collection, to which the returned pointer points. -/
def LogValuesOptions.AddOption {P : Type} (st : Store P) (lvos : Slice) (option : P) :
    Store P × Slice :=
  st.append lvos option

/-- Go `(*LogBuilder).CreateLogValuesOptions`. -/
def LogBuilder.CreateLogValuesOptions (_lb : LogBuilder) : Slice :=
  NewLogValuesOptions

/-- Go `(*LogBuilder).CreateLogValuesOptionsWith`: `append` of all the
arguments to a nil collection. -/
def LogBuilder.CreateLogValuesOptionsWith {P : Type} (_lb : LogBuilder) (st : Store P)
    (options : List P) : Store P × Slice :=
  st.appendAll Slice.null options

/-- The calls `AddOption(o1)`, ..., `AddOption(on)` in turn on a collection. -/
def addOptions {P : Type} (w : Store P × Slice) (options : List P) : Store P × Slice :=
  options.foldl (fun acc option => LogValuesOptions.AddOption acc.1 acc.2 option) w

/-! ## logger/zap/logger.go -/

/-- A non-nil `*zap.Logger`, told apart by an identity. -/
structure ZapCore where
  id : Nat
deriving DecidableEq, Repr

/-- A call of a level method of a `*zap.Logger`: the message and the fields
passed, which are a slice of the payload. -/
inductive ZapCall where
  | Info (logger : ZapCore) (msg : String) (fields : Slice)
  | Debug (logger : ZapCore) (msg : String) (fields : Slice)
  | Error (logger : ZapCore) (msg : String) (fields : Slice)
deriving DecidableEq, Repr

/-- Go `ZapLogger`: the wrapped `*zap.Logger`, which may be nil. -/
structure ZapLogger where
  logger : Option ZapCore
deriving DecidableEq, Repr

/-- Go `NewZapLogger`. -/
def NewZapLogger (logger : Option ZapCore) : ZapLogger := { logger := logger }

/-- A method call on the wrapped logger: the list of the calls made, or `none`
for the panic of a call through a nil `*zap.Logger`. -/
def zapCall (logger : Option ZapCore) (call : ZapCore → ZapCall) : Option (List ZapCall) :=
  match logger with
  | none => none
  | some z => some [call z]

/-- Go `(*ZapLogger).LogInfo`: `l.logger.Info(lv.Msg(), lv.InfoValues()...)`. -/
def ZapLogger.LogInfo (l : ZapLogger) (lv : LogValues) : Option (List ZapCall) :=
  zapCall l.logger fun z => ZapCall.Info z lv.Msg lv.InfoValues

/-- Go `(*ZapLogger).LogDebug`: `l.logger.Debug(lv.Msg(), lv.DebugValues()...)`. -/
def ZapLogger.LogDebug (l : ZapLogger) (lv : LogValues) : Option (List ZapCall) :=
  zapCall l.logger fun z => ZapCall.Debug z lv.Msg lv.DebugValues

/-- Go `(*ZapLogger).LogError`: `l.logger.Error(lv.Msg(), lv.ErrorValues()...)`. -/
def ZapLogger.LogError (l : ZapLogger) (lv : LogValues) : Option (List ZapCall) :=
  zapCall l.logger fun z => ZapCall.Error z lv.Msg lv.ErrorValues

/-- Go `(*ZapLogger).LogInfoContext`: the context is not used. -/
def ZapLogger.LogInfoContext (l : ZapLogger) (_ctx : Context) (lv : LogValues) :
    Option (List ZapCall) :=
  zapCall l.logger fun z => ZapCall.Info z lv.Msg lv.InfoValues

/-- Go `(*ZapLogger).LogDebugContext`: the context is not used. -/
def ZapLogger.LogDebugContext (l : ZapLogger) (_ctx : Context) (lv : LogValues) :
    Option (List ZapCall) :=
  zapCall l.logger fun z => ZapCall.Debug z lv.Msg lv.DebugValues

/-- Go `(*ZapLogger).LogErrorContext`: the context is not used. -/
def ZapLogger.LogErrorContext (l : ZapLogger) (_ctx : Context) (lv : LogValues) :
    Option (List ZapCall) :=
  zapCall l.logger fun z => ZapCall.Error z lv.Msg lv.ErrorValues

/-! ## What a sequence of builder calls passes to each method -/

/-- The argument of the call when it is a `WithMsg`. -/
def BuilderCall.msgArg {T : Type} : BuilderCall T → Option String
  | .WithMsg msg => some msg
  | _ => none

/-- The argument of the call when it is a `WithInfoValue`. -/
def BuilderCall.infoArg {T : Type} : BuilderCall T → Option T
  | .WithInfoValue field => some field
  | _ => none

/-- The argument of the call when it is a `WithDebugValue`. -/
def BuilderCall.debugArg {T : Type} : BuilderCall T → Option T
  | .WithDebugValue field => some field
  | _ => none

/-- The argument of the call when it is a `WithErrorValue`. -/
def BuilderCall.errorArg {T : Type} : BuilderCall T → Option T
  | .WithErrorValue field => some field
  | _ => none

/-- The message after the calls: the argument of the last `WithMsg`, and `start`
when there is none. -/
def lastMsg {T : Type} (start : String) (calls : List (BuilderCall T)) : String :=
  calls.foldl (fun m c => (c.msgArg).getD m) start

/-- An interface type as attribute type: `reflect.TypeOf` gives nil for the
zero value, the nil interface value, and for no other value. -/
def InterfaceType (T : Type) [GoType T] : Prop :=
  ∀ v : T, GoType.kindOf v = none ↔ v = GoType.zero

/-- A fresh context over a pointer type. -/
def demoFreshPointer : ObservabilityContext Pointer :=
  NewObservabilityHandler ⟨0⟩ "svc" (some demoLogger)

/-- A context over an interface type after `StartSpan("op")`. -/
def demoStartedBoxed : ObservabilityContext Boxed :=
  ((NewObservabilityHandler ⟨0⟩ "svc" (some demoLogger)).StartSpan demoTracer "op" []).1

/-- The stored tracing format after each call of a sequence of handler calls,
up to the first call that panics. -/
def formatHistory {T : Type} [GoType T] (w : Store T × ObservabilityContext T) :
    List (HandlerCall T) → List T
  | [] => []
  | c :: cs =>
    match (c.run w).result with
    | none => []
    | some w1 => w1.2.tracingFormat :: formatHistory w1 cs

/-! ## Log calls in sequence and the base trace options as a slice -/

/-- Whether the call is one of the six log methods. -/
def HandlerCall.isLog {T : Type} : HandlerCall T → Bool
  | .LogInfo _ _ => true
  | .LogError _ _ => true
  | .LogDebug _ _ => true
  | .LogInfoContext _ _ => true
  | .LogErrorContext _ _ => true
  | .LogDebugContext _ _ => true
  | _ => false

/-- The event options passed to a log call by its caller. -/
def HandlerCall.logOpts {T : Type} : HandlerCall T → List EventOption
  | .LogInfo _ opts => opts
  | .LogError _ opts => opts
  | .LogDebug _ opts => opts
  | .LogInfoContext _ opts => opts
  | .LogErrorContext _ opts => opts
  | .LogDebugContext _ opts => opts
  | _ => []

/-- The options a call on the span was given, for the two span methods. -/
def Effect.recordedOptions : Effect → Option (List EventOption)
  | .AddEvent _ _ options => some options
  | .RecordError _ _ options => some options
  | _ => none

/-- Go `withTraceOptions` with the base options as a slice in a store:
`append(baseOpts, opts...)`, which writes behind the base options when their
backing array has room and allocates otherwise. -/
def withTraceOptionsSlice (st : Store EventOption) (baseOpts : Slice) (opts : List EventOption) :
    Store EventOption × Slice :=
  st.appendAll baseOpts opts

/-- Log calls one after the other on the slice model of the base options: the
held header `baseOpts` stays, each call appends its own options to it, and what
the span is given is read when the call is made. The result is the list of the
options given to the span, call by call, and the store at the end. -/
def recordWithTraceOptions (st : Store EventOption) (baseOpts : Slice) :
    List (List EventOption) → List (List EventOption) × Store EventOption
  | [] => ([], st)
  | opts :: rest =>
    ((withTraceOptionsSlice st baseOpts opts).1.read (withTraceOptionsSlice st baseOpts opts).2 ::
        (recordWithTraceOptions (withTraceOptionsSlice st baseOpts opts).1 baseOpts rest).1,
      (recordWithTraceOptions (withTraceOptionsSlice st baseOpts opts).1 baseOpts rest).2)

/-- A second tracer, whose spans have other identifiers than those of `demoTracer`. -/
def demoTracer2 : Tracer :=
  ⟨fun ctx _ _ _ =>
    (⟨ctx.id + 1⟩, ⟨ctx.id + 1, ⟨⟨List.replicate 16 18, rfl⟩, ⟨List.replicate 8 52, rfl⟩⟩⟩)⟩

/-! # Theorems -/

/-! ## `append` -/

theorem Store.append_read {T : Type} (st : Store T) (s : Slice) (x : T) (hs : s.Owned st) :
    (st.append s x).1.read (st.append s x).2 = st.read s ++ [x] := by
  obtain ⟨hle, hcap⟩ := hs
  unfold Store.append
  split
  · next h =>
    have hc := (hcap (by omega)).2
    simp only [Store.read, if_true]
    rw [List.take_append_eq_append_take]
    simp [List.take_take, Nat.min_eq_left hc]
  · next h =>
    simp only [Store.read, if_true]
    apply List.take_of_length_le
    simp

theorem Store.append_next {T : Type} (st : Store T) (s : Slice) (x : T) :
    st.next ≤ (st.append s x).1.next := by
  unfold Store.append
  split <;> simp

theorem Store.append_owned {T : Type} (st : Store T) (s : Slice) (x : T) (hs : s.Owned st) :
    (st.append s x).2.Owned (st.append s x).1 := by
  obtain ⟨hle, hcap⟩ := hs
  unfold Store.append
  split
  · next h =>
    have hc := hcap (by omega)
    refine ⟨by simp; omega, fun _ => ⟨hc.1, ?_⟩⟩
    simp
    omega
  · next h =>
    refine ⟨by simp, fun _ => ⟨by simp, ?_⟩⟩
    simp [Store.read]
    omega

theorem Store.append_frame {T : Type} (st : Store T) (s t : Slice) (x : T) (hs : s.Owned st)
    (hl : t.Live st) (hsh : t.Shielded s) : (st.append s x).1.read t = st.read t := by
  obtain ⟨hle, hcap⟩ := hs
  unfold Store.append
  split
  · next h =>
    have hc := (hcap (by omega)).2
    simp only [Store.read]
    split
    · next he =>
      rcases hsh h with h1 | h1
      · exact absurd he h1
      · have hc2 : s.len ≤ (st.cells t.arr).length := by rw [he]; exact hc
        rw [List.take_append_of_le_length (by simp; omega)]
        simp [List.take_take, h1]
    · rfl
  · next h =>
    simp only [Store.read]
    split
    · next he =>
      rcases hl with h0 | h0
      · simp [h0]
      · omega
    · rfl

theorem Store.append_live {T : Type} (st : Store T) (s t : Slice) (x : T) (hl : t.Live st) :
    t.Live (st.append s x).1 := by
  have := st.append_next s x
  rcases hl with h | h
  · exact Or.inl h
  · exact Or.inr (by omega)

theorem Store.append_shielded {T : Type} (st : Store T) (s t : Slice) (x : T)
    (hl : t.Live st) (hsh : t.Shielded s) : t.Shielded (st.append s x).2 := by
  unfold Store.append
  split
  · next h =>
    intro h2
    rcases hsh h with h1 | h1
    · exact Or.inl h1
    · exact Or.inr (by simp; omega)
  · next h =>
    intro _
    rcases hl with h0 | h0
    · exact Or.inr (by simp [h0])
    · exact Or.inl (by simp; omega)

theorem Store.append_owned_other {T : Type} (st : Store T) (s u : Slice) (x : T)
    (hu : u.Owned st) (ha : s.Apart u) : u.Owned (st.append s x).1 := by
  obtain ⟨hle, hcap⟩ := hu
  refine ⟨hle, fun h0 => ?_⟩
  have hc := hcap h0
  have hn := st.append_next s x
  refine ⟨by omega, ?_⟩
  unfold Store.append
  split
  · next h =>
    have : u.arr ≠ s.arr := by
      rcases ha with h1 | h1 | h1
      · omega
      · omega
      · exact fun e => h1 e.symm
    simp [this, hc.2]
  · next h =>
    have : u.arr ≠ st.next := by omega
    simp [this, hc.2]

theorem Store.append_apart_other {T : Type} (st : Store T) (s u : Slice) (x : T)
    (hu : u.Owned st) (ha : s.Apart u) : (st.append s x).2.Apart u := by
  unfold Store.append
  split
  · next h =>
    rcases ha with h1 | h1 | h1
    · omega
    · exact Or.inr (Or.inl h1)
    · exact Or.inr (Or.inr h1)
  · next h =>
    by_cases h0 : u.cap = 0
    · exact Or.inr (Or.inl h0)
    · have := (hu.2 (by omega)).1
      exact Or.inr (Or.inr (by simp; omega))

theorem Store.append_read_other {T : Type} (st : Store T) (s u : Slice) (x : T)
    (hs : s.Owned st) (hu : u.Owned st) (ha : s.Apart u) :
    (st.append s x).1.read u = st.read u := by
  apply st.append_frame s u x hs
  · by_cases h0 : u.cap = 0
    · exact Or.inl (by have := hu.1; omega)
    · exact Or.inr (hu.2 (by omega)).1
  · intro h
    rcases ha with h1 | h1 | h1
    · omega
    · exact Or.inr (by have := hu.1; omega)
    · exact Or.inl (fun e => h1 e.symm)

/-- The model does show aliasing: two headers over one backing array with spare
capacity, and an `append` through the shorter one changes what the longer one
sees. The builder invariant is what rules this out. -/
theorem Store.append_aliasing_example :
    (Store.read ⟨fun a => if a = 0 then [1, 2] else [], 1, fun c => 2 * c⟩ ⟨0, 2, 2⟩ = [1, 2]) ∧
    ((Store.append ⟨fun a => if a = 0 then [1, 2] else [], 1, fun c => 2 * c⟩ ⟨0, 1, 2⟩ 9).1.read
      ⟨0, 2, 2⟩ = [1, 9]) := by
  decide

theorem Slice.Apart.symm {s t : Slice} (h : s.Apart t) : t.Apart s := by
  rcases h with h | h | h
  · exact Or.inr (Or.inl h)
  · exact Or.inl h
  · exact Or.inr (Or.inr (fun e => h e.symm))


/-! ## The builder methods on the slice model -/

theorem LogValuesBuilder.WF_new {T : Type} (st : Store T) : NewLogValuesBuilder.WF st := by
  simp [LogValuesBuilder.WF, NewLogValuesBuilder, Slice.Owned, Slice.Apart, Slice.null]

theorem LogValuesBuilder.WithInfoValue_spec {T : Type} (st : Store T) (b : LogValuesBuilder)
    (x : T) (h : b.WF st) :
    (LogValuesBuilder.WithInfoValue st b x).2.WF (LogValuesBuilder.WithInfoValue st b x).1 ∧
    (LogValuesBuilder.WithInfoValue st b x).2.msg = b.msg ∧
    (LogValuesBuilder.WithInfoValue st b x).2.err = b.err ∧
    (LogValuesBuilder.WithInfoValue st b x).1.read (LogValuesBuilder.WithInfoValue st b x).2.infoValues
      = st.read b.infoValues ++ [x] ∧
    (LogValuesBuilder.WithInfoValue st b x).1.read (LogValuesBuilder.WithInfoValue st b x).2.debugValues
      = st.read b.debugValues ∧
    (LogValuesBuilder.WithInfoValue st b x).1.read (LogValuesBuilder.WithInfoValue st b x).2.errorValues
      = st.read b.errorValues := by
  obtain ⟨hi, hd, he, hid, hie, hde⟩ := h
  refine ⟨⟨?_, ?_, ?_, ?_, ?_, ?_⟩, rfl, rfl, ?_, ?_, ?_⟩
  · exact st.append_owned _ x hi
  · exact st.append_owned_other _ _ x hd hid
  · exact st.append_owned_other _ _ x he hie
  · exact st.append_apart_other _ _ x hd hid
  · exact st.append_apart_other _ _ x he hie
  · exact hde
  · exact st.append_read _ x hi
  · exact st.append_read_other _ _ x hi hd hid
  · exact st.append_read_other _ _ x hi he hie

theorem LogValuesBuilder.WithDebugValue_spec {T : Type} (st : Store T) (b : LogValuesBuilder)
    (x : T) (h : b.WF st) :
    (LogValuesBuilder.WithDebugValue st b x).2.WF (LogValuesBuilder.WithDebugValue st b x).1 ∧
    (LogValuesBuilder.WithDebugValue st b x).2.msg = b.msg ∧
    (LogValuesBuilder.WithDebugValue st b x).2.err = b.err ∧
    (LogValuesBuilder.WithDebugValue st b x).1.read (LogValuesBuilder.WithDebugValue st b x).2.infoValues
      = st.read b.infoValues ∧
    (LogValuesBuilder.WithDebugValue st b x).1.read (LogValuesBuilder.WithDebugValue st b x).2.debugValues
      = st.read b.debugValues ++ [x] ∧
    (LogValuesBuilder.WithDebugValue st b x).1.read (LogValuesBuilder.WithDebugValue st b x).2.errorValues
      = st.read b.errorValues := by
  obtain ⟨hi, hd, he, hid, hie, hde⟩ := h
  refine ⟨⟨?_, ?_, ?_, ?_, ?_, ?_⟩, rfl, rfl, ?_, ?_, ?_⟩
  · exact st.append_owned_other _ _ x hi hid.symm
  · exact st.append_owned _ x hd
  · exact st.append_owned_other _ _ x he hde
  · exact (st.append_apart_other _ _ x hi hid.symm).symm
  · exact hie
  · exact st.append_apart_other _ _ x he hde
  · exact st.append_read_other _ _ x hd hi hid.symm
  · exact st.append_read _ x hd
  · exact st.append_read_other _ _ x hd he hde

theorem LogValuesBuilder.WithErrorValue_spec {T : Type} (st : Store T) (b : LogValuesBuilder)
    (x : T) (h : b.WF st) :
    (LogValuesBuilder.WithErrorValue st b x).2.WF (LogValuesBuilder.WithErrorValue st b x).1 ∧
    (LogValuesBuilder.WithErrorValue st b x).2.msg = b.msg ∧
    (LogValuesBuilder.WithErrorValue st b x).2.err = b.err ∧
    (LogValuesBuilder.WithErrorValue st b x).1.read (LogValuesBuilder.WithErrorValue st b x).2.infoValues
      = st.read b.infoValues ∧
    (LogValuesBuilder.WithErrorValue st b x).1.read (LogValuesBuilder.WithErrorValue st b x).2.debugValues
      = st.read b.debugValues ∧
    (LogValuesBuilder.WithErrorValue st b x).1.read (LogValuesBuilder.WithErrorValue st b x).2.errorValues
      = st.read b.errorValues ++ [x] := by
  obtain ⟨hi, hd, he, hid, hie, hde⟩ := h
  refine ⟨⟨?_, ?_, ?_, ?_, ?_, ?_⟩, rfl, rfl, ?_, ?_, ?_⟩
  · exact st.append_owned_other _ _ x hi hie.symm
  · exact st.append_owned_other _ _ x hd hde.symm
  · exact st.append_owned _ x he
  · exact hid
  · exact (st.append_apart_other _ _ x hi hie.symm).symm
  · exact (st.append_apart_other _ _ x hd hde.symm).symm
  · exact st.append_read_other _ _ x he hi hie.symm
  · exact st.append_read_other _ _ x he hd hde.symm
  · exact st.append_read _ x he

theorem BuilderCall.run_WF {T : Type} (st : Store T) (b : LogValuesBuilder) (c : BuilderCall T)
    (h : b.WF st) : (c.run (st, b)).2.WF (c.run (st, b)).1 := by
  cases c with
  | WithMsg msg => exact h
  | WithInfoValue x => exact (LogValuesBuilder.WithInfoValue_spec st b x h).1
  | WithDebugValue x => exact (LogValuesBuilder.WithDebugValue_spec st b x h).1
  | WithErrorValue x => exact (LogValuesBuilder.WithErrorValue_spec st b x h).1

theorem BuilderCall.run_frozen {T : Type} (st : Store T) (b : LogValuesBuilder) (c : BuilderCall T)
    (t : Slice) (h : b.WF st) (ht : t.Frozen st b) :
    t.Frozen (c.run (st, b)).1 (c.run (st, b)).2 ∧ (c.run (st, b)).1.read t = st.read t := by
  obtain ⟨hi, hd, he, -, -, -⟩ := h
  obtain ⟨hl, si, sd, se⟩ := ht
  cases c with
  | WithMsg msg => exact ⟨⟨hl, si, sd, se⟩, rfl⟩
  | WithInfoValue x =>
    exact ⟨⟨st.append_live _ t x hl, st.append_shielded _ t x hl si, sd, se⟩,
      st.append_frame _ t x hi hl si⟩
  | WithDebugValue x =>
    exact ⟨⟨st.append_live _ t x hl, si, st.append_shielded _ t x hl sd, se⟩,
      st.append_frame _ t x hd hl sd⟩
  | WithErrorValue x =>
    exact ⟨⟨st.append_live _ t x hl, si, sd, st.append_shielded _ t x hl se⟩,
      st.append_frame _ t x he hl se⟩

theorem runBuilderCalls_WF {T : Type} (calls : List (BuilderCall T)) (st : Store T)
    (b : LogValuesBuilder) (h : b.WF st) :
    (runBuilderCalls (st, b) calls).2.WF (runBuilderCalls (st, b) calls).1 := by
  induction calls generalizing st b with
  | nil => exact h
  | cons c cs ih => exact ih _ _ (BuilderCall.run_WF st b c h)

theorem runBuilderCalls_frozen {T : Type} (calls : List (BuilderCall T)) (st : Store T)
    (b : LogValuesBuilder) (t : Slice) (h : b.WF st) (ht : t.Frozen st b) :
    (runBuilderCalls (st, b) calls).1.read t = st.read t := by
  induction calls generalizing st b with
  | nil => rfl
  | cons c cs ih =>
    have h1 := BuilderCall.run_frozen st b c t h ht
    have h2 := ih _ _ (BuilderCall.run_WF st b c h) h1.1
    exact h2.trans h1.2

theorem Slice.frozen_self {T : Type} (st : Store T) (s : Slice) (b : LogValuesBuilder)
    (hs : s.Owned st) (h1 : s = b.infoValues ∨ s.Apart b.infoValues)
    (h2 : s = b.debugValues ∨ s.Apart b.debugValues)
    (h3 : s = b.errorValues ∨ s.Apart b.errorValues) : s.Frozen st b := by
  have key : ∀ u : Slice, (s = u ∨ s.Apart u) → s.Shielded u := by
    intro u hu hlt
    rcases hu with rfl | h | h | h
    · exact Or.inr (Nat.le_refl _)
    · exact Or.inr (by have := hs.1; omega)
    · omega
    · exact Or.inl h
  refine ⟨?_, key _ h1, key _ h2, key _ h3⟩
  by_cases h0 : s.cap = 0
  · exact Or.inl (by have := hs.1; omega)
  · exact Or.inr (hs.2 (by omega)).1

theorem LogValuesBuilder.Build_frozen {T : Type} (st : Store T) (b : LogValuesBuilder)
    (h : b.WF st) :
    b.Build.InfoValues.Frozen st b ∧ b.Build.DebugValues.Frozen st b ∧
    b.Build.ErrorValues.Frozen st b := by
  obtain ⟨hi, hd, he, hid, hie, hde⟩ := h
  refine ⟨?_, ?_, ?_⟩
  · exact Slice.frozen_self st _ b hi (Or.inl rfl) (Or.inr hid) (Or.inr hie)
  · exact Slice.frozen_self st _ b hd (Or.inr hid.symm) (Or.inl rfl) (Or.inr hde)
  · exact Slice.frozen_self st _ b he (Or.inr hie.symm) (Or.inr hde.symm) (Or.inl rfl)


/-! ## `FactoryLogValuesBuilder` -/

theorem factoryStep_spec {T : Type} (st : Store T) (b : LogValuesBuilder) (o : LogValueOption T)
    (h : b.WF st) :
    (factoryStep (st, b) o).2.WF (factoryStep (st, b) o).1 ∧
    (factoryStep (st, b) o).2.msg = b.msg ∧
    (factoryStep (st, b) o).2.err = b.err ∧
    (factoryStep (st, b) o).1.read (factoryStep (st, b) o).2.debugValues
      = st.read b.debugValues ++ (if o.debug then [o.Attr] else []) ∧
    (factoryStep (st, b) o).1.read (factoryStep (st, b) o).2.errorValues
      = st.read b.errorValues ++ (if (o.err && !o.debug) then [o.Attr] else []) ∧
    (factoryStep (st, b) o).1.read (factoryStep (st, b) o).2.infoValues
      = st.read b.infoValues ++ (if (o.info && !o.debug && !o.err) then [o.Attr] else []) := by
  unfold factoryStep
  by_cases hd : o.debug = true
  · obtain ⟨w, m, e, ri, rd, re⟩ := LogValuesBuilder.WithDebugValue_spec st b o.Attr h
    simp only [hd, if_true]
    exact ⟨w, m, e, by simpa using rd, by simpa using re, by simpa using ri⟩
  · by_cases he : o.err = true
    · obtain ⟨w, m, e, ri, rd, re⟩ := LogValuesBuilder.WithErrorValue_spec st b o.Attr h
      simp only [hd, he, if_true]
      exact ⟨w, m, e, by simpa using rd, by simpa using re, by simpa using ri⟩
    · by_cases hi : o.info = true
      · obtain ⟨w, m, e, ri, rd, re⟩ := LogValuesBuilder.WithInfoValue_spec st b o.Attr h
        simp only [hd, he, hi, if_true]
        exact ⟨w, m, e, by simpa using rd, by simpa using re, by simpa using ri⟩
      · simp [hd, he, hi, h]

theorem factoryFold_spec {T : Type} (os : LogValuesOptions T) (st : Store T)
    (b : LogValuesBuilder) (h : b.WF st) :
    (os.foldl factoryStep (st, b)).2.WF (os.foldl factoryStep (st, b)).1 ∧
    (os.foldl factoryStep (st, b)).2.msg = b.msg ∧
    (os.foldl factoryStep (st, b)).2.err = b.err ∧
    (os.foldl factoryStep (st, b)).1.read (os.foldl factoryStep (st, b)).2.debugValues
      = st.read b.debugValues ++ (os.filter fun o => o.debug).map (fun o => o.Attr) ∧
    (os.foldl factoryStep (st, b)).1.read (os.foldl factoryStep (st, b)).2.errorValues
      = st.read b.errorValues ++ (os.filter fun o => o.err && !o.debug).map (fun o => o.Attr) ∧
    (os.foldl factoryStep (st, b)).1.read (os.foldl factoryStep (st, b)).2.infoValues
      = st.read b.infoValues ++
        (os.filter fun o => o.info && !o.debug && !o.err).map (fun o => o.Attr) := by
  induction os generalizing st b with
  | nil => simp [h]
  | cons o os ih =>
    obtain ⟨h1, h2, h3, h4, h5, h6⟩ := factoryStep_spec st b o h
    obtain ⟨i1, i2, i3, i4, i5, i6⟩ := ih _ _ h1
    simp only [List.foldl_cons]
    refine ⟨i1, i2.trans h2, i3.trans h3, ?_, ?_, ?_⟩
    · rw [i4, h4, List.append_assoc]
      congr 1
      by_cases hd : o.debug = true <;> simp [List.filter_cons, hd]
    · rw [i5, h5, List.append_assoc]
      congr 1
      by_cases hd : (o.err && !o.debug) = true <;> simp only [List.filter_cons, hd] <;> simp
    · rw [i6, h6, List.append_assoc]
      congr 1
      by_cases hd : (o.info && !o.debug && !o.err) = true <;>
        simp only [List.filter_cons, hd] <;> simp

theorem filter_levels_length {T : Type} (os : LogValuesOptions T) :
    (os.filter fun o => o.debug).length + (os.filter fun o => o.err && !o.debug).length +
      (os.filter fun o => o.info && !o.debug && !o.err).length
      = (os.filter fun o => o.debug || o.err || o.info).length := by
  induction os with
  | nil => rfl
  | cons o os ih =>
    simp only [List.filter_cons]
    cases hd : o.debug <;> cases he : o.err <;> cases hi : o.info <;> simp <;> omega

/-- C3: for every option list, `FactoryLogValuesBuilder` returns a builder with
empty message and nil error whose `debugValues` are the `Attr` of the options
with `debug` set, whose `errorValues` are the `Attr` of the options with `err`
set and `debug` unset, and whose `infoValues` are the `Attr` of the options with
`info` set and `debug` and `err` unset, each in input order; the three lists
together have one entry for each option that has some flag set, so an option
with several flags is in exactly one list and an option with none is in no list. -/
theorem FactoryLogValuesBuilder_groups {T : Type} (st : Store T) (os : LogValuesOptions T) :
    (FactoryLogValuesBuilder st os).2.msg = "" ∧
    (FactoryLogValuesBuilder st os).2.err = none ∧
    (FactoryLogValuesBuilder st os).1.read (FactoryLogValuesBuilder st os).2.debugValues
      = (os.filter fun o => o.debug).map (fun o => o.Attr) ∧
    (FactoryLogValuesBuilder st os).1.read (FactoryLogValuesBuilder st os).2.errorValues
      = (os.filter fun o => o.err && !o.debug).map (fun o => o.Attr) ∧
    (FactoryLogValuesBuilder st os).1.read (FactoryLogValuesBuilder st os).2.infoValues
      = (os.filter fun o => o.info && !o.debug && !o.err).map (fun o => o.Attr) ∧
    ((FactoryLogValuesBuilder st os).1.read (FactoryLogValuesBuilder st os).2.debugValues).length +
      ((FactoryLogValuesBuilder st os).1.read (FactoryLogValuesBuilder st os).2.errorValues).length +
      ((FactoryLogValuesBuilder st os).1.read (FactoryLogValuesBuilder st os).2.infoValues).length
      = (os.filter fun o => o.debug || o.err || o.info).length := by
  obtain ⟨-, h2, h3, h4, h5, h6⟩ := factoryFold_spec os st _ (LogValuesBuilder.WF_new st)
  have r1 : st.read NewLogValuesBuilder.debugValues = [] := by
    simp [Store.read, NewLogValuesBuilder, Slice.null]
  have r2 : st.read NewLogValuesBuilder.errorValues = [] := by
    simp [Store.read, NewLogValuesBuilder, Slice.null]
  have r3 : st.read NewLogValuesBuilder.infoValues = [] := by
    simp [Store.read, NewLogValuesBuilder, Slice.null]
  rw [r1, List.nil_append] at h4
  rw [r2, List.nil_append] at h5
  rw [r3, List.nil_append] at h6
  unfold FactoryLogValuesBuilder
  refine ⟨h2, h3, h4, h5, h6, ?_⟩
  rw [h4, h5, h6]
  simp only [List.length_map]
  exact filter_levels_length os

/-- The example of the test `TestFactoryLogValuesBuilder`, and an option with
all three flags set, which goes to the debug values only. -/
theorem FactoryLogValuesBuilder_test :
    (FactoryLogValuesBuilder (Store.empty String)
        [⟨"foo", true, false, false⟩, ⟨"bar", false, false, true⟩,
         ⟨"baz", false, true, false⟩]).2.Build.observe
      (FactoryLogValuesBuilder (Store.empty String)
        [⟨"foo", true, false, false⟩, ⟨"bar", false, false, true⟩,
         ⟨"baz", false, true, false⟩]).1
      = ("", none, ["baz"], ["foo"], ["bar"]) ∧
    (FactoryLogValuesBuilder (Store.empty String) [⟨"all", true, true, true⟩]).2.Build.observe
      (FactoryLogValuesBuilder (Store.empty String) [⟨"all", true, true, true⟩]).1
      = ("", none, [], ["all"], []) := by
  decide

/-! ## `Build` is a snapshot -/

/-- C9: for every builder obtained from `NewLogValuesBuilder` by any calls of
`WithMsg`, `WithInfoValue`, `WithDebugValue` and `WithErrorValue`, if `lv` is the
result of `Build()`, then after any further sequence of such calls on the builder
the accessors `Msg()`, `Err()`, `InfoValues()`, `DebugValues()` and
`ErrorValues()` of `lv` give the same values as immediately after `Build`, although
the builder appends into backing arrays that `lv` shares. -/
theorem Build_snapshot {T : Type} (st : Store T) (before later : List (BuilderCall T)) :
    (runBuilderCalls (st, NewLogValuesBuilder) before).2.Build.observe
        (runBuilderCalls (runBuilderCalls (st, NewLogValuesBuilder) before) later).1
      = (runBuilderCalls (st, NewLogValuesBuilder) before).2.Build.observe
        (runBuilderCalls (st, NewLogValuesBuilder) before).1 := by
  have hwf := runBuilderCalls_WF before st _ (LogValuesBuilder.WF_new st)
  obtain ⟨f1, f2, f3⟩ := LogValuesBuilder.Build_frozen _ _ hwf
  have e1 := runBuilderCalls_frozen later _ _ _ hwf f1
  have e2 := runBuilderCalls_frozen later _ _ _ hwf f2
  have e3 := runBuilderCalls_frozen later _ _ _ hwf f3
  simp only [LogValues.observe, e1, e2, e3]


/-! ## Running Go code -/

theorem Run.ext {α : Type} {a b : Run α} (h1 : a.effects = b.effects) (h2 : a.result = b.result) :
    a = b := by
  cases a; cases b; simp_all

theorem hexEncode_length (bs : List (Fin 256)) : (hexEncode bs).length = 2 * bs.length := by
  unfold hexEncode
  simp only [String.length]
  induction bs with
  | nil => rfl
  | cons b bs ih =>
    rw [List.flatMap_cons, List.length_append, ih]
    simp only [List.length_cons, List.length_nil]
    omega

theorem traceID_String_ne_empty (t : TraceID) : t.String ≠ "" := by
  intro h
  have := hexEncode_length t.bytes
  rw [show hexEncode t.bytes = "" from h, t.size] at this
  simp at this

theorem spanID_String_ne_empty (t : SpanID) : t.String ≠ "" := by
  intro h
  have := hexEncode_length t.bytes
  rw [show hexEncode t.bytes = "" from h, t.size] at this
  simp at this

/-! ## The log methods -/

/-- C4: on a started context with an injected logger, `LogInfo(lv, opts...)`
records exactly one span event, named `lv.Msg()`, with the base trace options
followed by `opts`, and then calls the logger exactly once, through `LogInfo`
with `lv` unchanged; `LogDebug` does the same through the logger's `LogDebug`.
Nothing else is called. -/
theorem LogInfo_LogDebug_fan_out {T : Type} (oc : ObservabilityContext T) (sp : Span)
    (lg : Logger) (hs : oc.span = some sp) (hl : oc.logger = some lg) (lv : LogValues)
    (opts : List EventOption) :
    oc.LogInfo lv opts
      = ⟨[Effect.AddEvent sp lv.Msg (oc.traceOptions ++ opts), Effect.LogInfo lg lv], some ()⟩ ∧
    oc.LogDebug lv opts
      = ⟨[Effect.AddEvent sp lv.Msg (oc.traceOptions ++ opts), Effect.LogDebug lg lv], some ()⟩ := by
  constructor <;>
    simp [ObservabilityContext.LogInfo, ObservabilityContext.LogDebug, spanAddEvent, loggerCall,
      withTraceOptions, hs, hl, Bind.bind, Run.bind, Run.emit]


/-- Witness of C4 on the started demo context, with one call-site option. -/
theorem LogInfo_LogDebug_fan_out_witness :
    (demoStarted.span = some (demoTracer.Start ⟨0⟩ "svc" "op" []).2 ∧
      demoStarted.logger = some demoLogger) ∧
    (demoStarted.LogInfo ⟨"hello", none, Slice.null, Slice.null, Slice.null⟩
        [EventOption.WithStackTrace true]
      = ⟨[Effect.AddEvent (demoTracer.Start ⟨0⟩ "svc" "op" []).2
            (LogValues.Msg ⟨"hello", none, Slice.null, Slice.null, Slice.null⟩)
            (demoStarted.traceOptions ++ [EventOption.WithStackTrace true]),
          Effect.LogInfo demoLogger ⟨"hello", none, Slice.null, Slice.null, Slice.null⟩],
          some ()⟩ ∧
    demoStarted.LogDebug ⟨"hello", none, Slice.null, Slice.null, Slice.null⟩
        [EventOption.WithStackTrace true]
      = ⟨[Effect.AddEvent (demoTracer.Start ⟨0⟩ "svc" "op" []).2
            (LogValues.Msg ⟨"hello", none, Slice.null, Slice.null, Slice.null⟩)
            (demoStarted.traceOptions ++ [EventOption.WithStackTrace true]),
          Effect.LogDebug demoLogger ⟨"hello", none, Slice.null, Slice.null, Slice.null⟩],
          some ()⟩) :=
  ⟨⟨rfl, rfl⟩, LogInfo_LogDebug_fan_out demoStarted _ demoLogger rfl rfl _ _⟩

/-- C5: on a started context with an injected logger, `LogError(lv, opts...)`
records `lv.Err()` on the span exactly once, with the base trace options
followed by `opts`, adds no span event, and then calls the logger exactly once,
through `LogError` with `lv` unchanged. -/
theorem LogError_fan_out {T : Type} (oc : ObservabilityContext T) (sp : Span)
    (lg : Logger) (hs : oc.span = some sp) (hl : oc.logger = some lg) (lv : LogValues)
    (opts : List EventOption) :
    oc.LogError lv opts
      = ⟨[Effect.RecordError sp lv.Err (oc.traceOptions ++ opts), Effect.LogError lg lv],
          some ()⟩ := by
  simp [ObservabilityContext.LogError, spanRecordError, loggerCall,
    withTraceOptions, hs, hl, Bind.bind, Run.bind, Run.emit]

/-- Witness of C5 on the started demo context, with an error and one call-site option. -/
theorem LogError_fan_out_witness :
    (demoStarted.span = some (demoTracer.Start ⟨0⟩ "svc" "op" []).2 ∧
      demoStarted.logger = some demoLogger) ∧
    demoStarted.LogError ⟨"failed", some "boom", Slice.null, Slice.null, Slice.null⟩
        [EventOption.WithStackTrace true]
      = ⟨[Effect.RecordError (demoTracer.Start ⟨0⟩ "svc" "op" []).2
            (LogValues.Err ⟨"failed", some "boom", Slice.null, Slice.null, Slice.null⟩)
            (demoStarted.traceOptions ++ [EventOption.WithStackTrace true]),
          Effect.LogError demoLogger ⟨"failed", some "boom", Slice.null, Slice.null, Slice.null⟩],
          some ()⟩ :=
  ⟨⟨rfl, rfl⟩, LogError_fan_out demoStarted _ demoLogger rfl rfl _ _⟩

/-- C7: on a context whose span is nil (no `StartSpan` yet), each of the six
log methods panics, and it does so before any external call: the injected logger
receives nothing. -/
theorem Log_unstarted_faults {T : Type} (oc : ObservabilityContext T) (hs : oc.span = none)
    (lv : LogValues) (opts : List EventOption) :
    ((oc.LogInfo lv opts).result = none ∧ (oc.LogInfo lv opts).effects = []) ∧
    ((oc.LogError lv opts).result = none ∧ (oc.LogError lv opts).effects = []) ∧
    ((oc.LogDebug lv opts).result = none ∧ (oc.LogDebug lv opts).effects = []) ∧
    ((oc.LogInfoContext lv opts).result = none ∧ (oc.LogInfoContext lv opts).effects = []) ∧
    ((oc.LogErrorContext lv opts).result = none ∧ (oc.LogErrorContext lv opts).effects = []) ∧
    ((oc.LogDebugContext lv opts).result = none ∧ (oc.LogDebugContext lv opts).effects = []) := by
  simp [ObservabilityContext.LogInfo, ObservabilityContext.LogError, ObservabilityContext.LogDebug,
    ObservabilityContext.LogInfoContext, ObservabilityContext.LogErrorContext,
    ObservabilityContext.LogDebugContext, spanAddEvent, spanRecordError, hs, Bind.bind, Run.bind,
    Run.panic]

/-- Witness of C7 on the fresh demo context. -/
theorem Log_unstarted_faults_witness :
    demoFresh.span = none ∧
    (demoFresh.LogInfo ⟨"hello", none, Slice.null, Slice.null, Slice.null⟩ []).result = none ∧
    (demoFresh.LogInfo ⟨"hello", none, Slice.null, Slice.null, Slice.null⟩ []).effects = [] :=
  ⟨rfl, (Log_unstarted_faults demoFresh rfl ⟨"hello", none, Slice.null, Slice.null, Slice.null⟩ []).1⟩

/-! ## `StartSpan` -/

/-- C10: in any state and for any span name, `StartSpan` replaces the held span
and context by the ones the tracer returns, sets `traceId` and `spanId` to the
identifiers of the new span, and resets the base trace options to exactly one
entry carrying the attributes `traceId` and `spanId` of the new span, whatever
they were before; it returns the new context and the new span, and a second
`StartSpan` leaves as many base options as the first. -/
theorem StartSpan_resets {T : Type} (tr : Tracer) (oc : ObservabilityContext T) (name : String)
    (opts : List SpanStartOption) :
    (oc.StartSpan tr name opts).1.span = some (tr.Start oc.ctx oc.serviceName name opts).2 ∧
    (oc.StartSpan tr name opts).1.ctx = (tr.Start oc.ctx oc.serviceName name opts).1 ∧
    (oc.StartSpan tr name opts).1.traceId
      = (tr.Start oc.ctx oc.serviceName name opts).2.spanContext.traceID.String ∧
    (oc.StartSpan tr name opts).1.spanId
      = (tr.Start oc.ctx oc.serviceName name opts).2.spanContext.spanID.String ∧
    (oc.StartSpan tr name opts).1.traceOptions
      = [EventOption.WithAttributes
          [⟨"traceId", (tr.Start oc.ctx oc.serviceName name opts).2.spanContext.traceID.String⟩,
           ⟨"spanId", (tr.Start oc.ctx oc.serviceName name opts).2.spanContext.spanID.String⟩]] ∧
    (oc.StartSpan tr name opts).2
      = ((tr.Start oc.ctx oc.serviceName name opts).1,
         (tr.Start oc.ctx oc.serviceName name opts).2) ∧
    (∀ (tr2 : Tracer) (name2 : String) (opts2 : List SpanStartOption),
      (((oc.StartSpan tr name opts).1.StartSpan tr2 name2 opts2).1.traceOptions).length
        = ((oc.StartSpan tr name opts).1.traceOptions).length) := by
  refine ⟨rfl, rfl, rfl, rfl, rfl, rfl, fun _ _ _ => rfl⟩


/-! ## Handler calls, one at a time and in sequence -/

theorem Run.bind_result {α β : Type} (m : Run α) (f : α → Run β) (b : β) :
    (m >>= f).result = some b ↔ ∃ a, m.result = some a ∧ (f a).result = some b := by
  show (Run.bind m f).result = some b ↔ _
  unfold Run.bind
  split
  · next h => simp [h]
  · next a h => simp [h]

theorem Run.pure_result {α : Type} (a b : α) : (pure a : Run α).result = some b ↔ a = b := by
  show some a = some b ↔ _
  simp

theorem GetTraceValues_unstarted {T : Type} (oc : ObservabilityContext T) (h : oc.span = none) :
    oc.GetTraceValues = (⟨"", ""⟩, some "span haven't been started yet") := by
  simp [ObservabilityContext.GetTraceValues, h]

theorem GetTraceValues_started {T : Type} (oc : ObservabilityContext T) (sp : Span)
    (h : oc.span = some sp) : oc.GetTraceValues = (⟨oc.traceId, oc.spanId⟩, none) := by
  simp [ObservabilityContext.GetTraceValues, h]

theorem isNil_of_ne_zero {T : Type} [GoType T] {k : Kind} (hT : ConcreteType T k) (v : T)
    (h : v ≠ GoType.zero) : isNil v = pure false := by
  have hz : GoType.isZero v = false := by
    cases hv : GoType.isZero v with
    | false => rfl
    | true => exact absurd ((hT.2 v).1 hv) h
  simp [isNil, hT.1 v, hz]

theorem isNil_zero {T : Type} [GoType T] {k : Kind} (hT : ConcreteType T k) (hk : k ≠ Kind.Ptr) :
    isNil (GoType.zero : T) = pure true := by
  have hz : GoType.isZero (GoType.zero : T) = true := (hT.2 _).2 rfl
  have hb : (k != Kind.Ptr) = true := by simpa using hk
  simp [isNil, hT.1, hz, hb]

theorem SetTracingFormat_of_set {T : Type} [GoType T] (oc : ObservabilityContext T)
    (f : String → TraceValues → T) (h : isNil oc.tracingFormat = pure false) :
    oc.SetTracingFormat f = ⟨[], some (oc, some "tracing format already set")⟩ := by
  unfold ObservabilityContext.SetTracingFormat
  rw [h]
  rfl

theorem SetTracingFormat_of_unset {T : Type} [GoType T] (oc : ObservabilityContext T)
    (f : String → TraceValues → T) (h : isNil oc.tracingFormat = pure true) :
    oc.SetTracingFormat f
      = ⟨[Effect.TracingSetup "tracing" oc.GetTraceValues.1],
          some ({ oc with tracingFormat := f "tracing" oc.GetTraceValues.1 }, none)⟩ := by
  unfold ObservabilityContext.SetTracingFormat
  rw [h]
  rfl

theorem isNil_cases {T : Type} [GoType T] (v : T) :
    isNil v = Run.panic ∨ isNil v = pure false ∨ isNil v = pure true := by
  unfold isNil
  split
  · exact Or.inl rfl
  · next valueKind _ =>
    cases h : (GoType.isZero v && valueKind != Kind.Ptr) with
    | false => exact Or.inr (Or.inl rfl)
    | true => exact Or.inr (Or.inr rfl)

theorem SetTracingFormat_result {T : Type} [GoType T] (oc : ObservabilityContext T)
    (f : String → TraceValues → T) (r : ObservabilityContext T × GoError)
    (h : (oc.SetTracingFormat f).result = some r) :
    (isNil oc.tracingFormat = pure false ∧ r.1 = oc) ∨
    (isNil oc.tracingFormat = pure true ∧
      r.1 = { oc with tracingFormat := f "tracing" oc.GetTraceValues.1 }) := by
  rcases isNil_cases oc.tracingFormat with hn | hn | hn
  · unfold ObservabilityContext.SetTracingFormat at h
    rw [hn] at h
    exact absurd h (by simp [Run.panic, Bind.bind, Run.bind])
  · rw [SetTracingFormat_of_set oc f hn] at h
    left
    refine ⟨hn, ?_⟩
    simp at h
    rw [← h]
  · rw [SetTracingFormat_of_unset oc f hn] at h
    right
    refine ⟨hn, ?_⟩
    simp at h
    rw [← h]

theorem HandlerCall.run_frame {T : Type} [GoType T] (w w2 : Store T × ObservabilityContext T)
    (c : HandlerCall T) (h : (c.run w).result = some w2) :
    (c.isStartSpan = false →
      w2.2.span = w.2.span ∧ w2.2.traceId = w.2.traceId ∧ w2.2.spanId = w.2.spanId) ∧
    (c.isStartSpan = true → w2.2.span ≠ none) ∧
    (c.isSetTracingFormat = false → w2.2.tracingFormat = w.2.tracingFormat) ∧
    (isNil w.2.tracingFormat = pure false → w2.2.tracingFormat = w.2.tracingFormat) := by
  cases c with
  | StartSpan tr name opts =>
    simp only [HandlerCall.run, Run.pure_result] at h
    subst h
    simp [HandlerCall.isStartSpan, HandlerCall.isSetTracingFormat, ObservabilityContext.StartSpan]
  | GetTraceValues =>
    simp only [HandlerCall.run, Run.pure_result] at h
    subst h
    simp [HandlerCall.isStartSpan]
  | SetTracingFormat f =>
    simp only [HandlerCall.run, Run.bind_result, Run.pure_result] at h
    obtain ⟨r, hr, rfl⟩ := h
    rcases SetTracingFormat_result w.2 f r hr with ⟨hn, he⟩ | ⟨hn, he⟩
    · simp [HandlerCall.isStartSpan, HandlerCall.isSetTracingFormat, he]
    · have hne : isNil w.2.tracingFormat ≠ pure false := by
        rw [hn]
        intro hc
        have hr2 : some true = some false := congrArg Run.result hc
        simp at hr2
      simp [HandlerCall.isStartSpan, HandlerCall.isSetTracingFormat, he, hne]
  | CreateLogBuilder =>
    simp only [HandlerCall.run, Run.bind_result, Run.pure_result] at h
    obtain ⟨r, -, rfl⟩ := h
    simp [HandlerCall.isStartSpan]
  | LogInfo lv opts =>
    simp only [HandlerCall.run, Run.bind_result, Run.pure_result] at h
    obtain ⟨r, -, rfl⟩ := h
    simp [HandlerCall.isStartSpan]
  | LogError lv opts =>
    simp only [HandlerCall.run, Run.bind_result, Run.pure_result] at h
    obtain ⟨r, -, rfl⟩ := h
    simp [HandlerCall.isStartSpan]
  | LogDebug lv opts =>
    simp only [HandlerCall.run, Run.bind_result, Run.pure_result] at h
    obtain ⟨r, -, rfl⟩ := h
    simp [HandlerCall.isStartSpan]
  | LogInfoContext lv opts =>
    simp only [HandlerCall.run, Run.bind_result, Run.pure_result] at h
    obtain ⟨r, -, rfl⟩ := h
    simp [HandlerCall.isStartSpan]
  | LogErrorContext lv opts =>
    simp only [HandlerCall.run, Run.bind_result, Run.pure_result] at h
    obtain ⟨r, -, rfl⟩ := h
    simp [HandlerCall.isStartSpan]
  | LogDebugContext lv opts =>
    simp only [HandlerCall.run, Run.bind_result, Run.pure_result] at h
    obtain ⟨r, -, rfl⟩ := h
    simp [HandlerCall.isStartSpan]

theorem runHandlerCalls_cons_result {T : Type} [GoType T] (w w2 : Store T × ObservabilityContext T)
    (c : HandlerCall T) (cs : List (HandlerCall T)) :
    (runHandlerCalls w (c :: cs)).result = some w2 ↔
      ∃ w1, (c.run w).result = some w1 ∧ (runHandlerCalls w1 cs).result = some w2 := by
  simp only [runHandlerCalls, Run.bind_result]

theorem runHandlerCalls_span_none {T : Type} [GoType T] (cs : List (HandlerCall T))
    (w w2 : Store T × ObservabilityContext T) (h : (runHandlerCalls w cs).result = some w2) :
    w2.2.span = none ↔ (w.2.span = none ∧ ∀ c ∈ cs, c.isStartSpan = false) := by
  induction cs generalizing w with
  | nil =>
    simp only [runHandlerCalls, Run.pure_result] at h
    subst h
    simp
  | cons c cs ih =>
    obtain ⟨w1, h1, h2⟩ := (runHandlerCalls_cons_result w w2 c cs).1 h
    rw [ih w1 h2]
    have hf := HandlerCall.run_frame w w1 c h1
    cases hc : c.isStartSpan with
    | false =>
      rw [(hf.1 hc).1]
      simp [hc]
    | true =>
      have := hf.2.1 hc
      simp [hc, this]

theorem runHandlerCalls_keep_span {T : Type} [GoType T] (cs : List (HandlerCall T))
    (w w2 : Store T × ObservabilityContext T) (h : (runHandlerCalls w cs).result = some w2)
    (hcs : ∀ c ∈ cs, c.isStartSpan = false) :
    w2.2.span = w.2.span ∧ w2.2.traceId = w.2.traceId ∧ w2.2.spanId = w.2.spanId := by
  induction cs generalizing w with
  | nil =>
    simp only [runHandlerCalls, Run.pure_result] at h
    subst h
    simp
  | cons c cs ih =>
    obtain ⟨w1, h1, h2⟩ := (runHandlerCalls_cons_result w w2 c cs).1 h
    obtain ⟨i1, i2, i3⟩ := ih w1 h2 (fun d hd => hcs d (List.mem_cons_of_mem _ hd))
    obtain ⟨j1, j2, j3⟩ := (HandlerCall.run_frame w w1 c h1).1 (hcs c (List.mem_cons_self _ _))
    exact ⟨i1.trans j1, i2.trans j2, i3.trans j3⟩

theorem runHandlerCalls_keep_format {T : Type} [GoType T] (cs : List (HandlerCall T))
    (w w2 : Store T × ObservabilityContext T) (h : (runHandlerCalls w cs).result = some w2)
    (hcs : (∀ c ∈ cs, c.isSetTracingFormat = false) ∨ isNil w.2.tracingFormat = pure false) :
    w2.2.tracingFormat = w.2.tracingFormat := by
  induction cs generalizing w with
  | nil =>
    simp only [runHandlerCalls, Run.pure_result] at h
    subst h
    rfl
  | cons c cs ih =>
    obtain ⟨w1, h1, h2⟩ := (runHandlerCalls_cons_result w w2 c cs).1 h
    have hf := HandlerCall.run_frame w w1 c h1
    have e1 : w1.2.tracingFormat = w.2.tracingFormat := by
      rcases hcs with hc | hc
      · exact hf.2.2.1 (hc c (List.mem_cons_self _ _))
      · exact hf.2.2.2 hc
    have := ih w1 h2 (by
      rcases hcs with hc | hc
      · exact Or.inl (fun d hd => hc d (List.mem_cons_of_mem _ hd))
      · exact Or.inr (by rw [e1]; exact hc))
    exact this.trans e1

theorem runHandlerCalls_append_result {T : Type} [GoType T] (pre cs : List (HandlerCall T))
    (w w2 : Store T × ObservabilityContext T) :
    (runHandlerCalls w (pre ++ cs)).result = some w2 ↔
      ∃ w1, (runHandlerCalls w pre).result = some w1 ∧ (runHandlerCalls w1 cs).result = some w2 := by
  induction pre generalizing w with
  | nil => simp [runHandlerCalls, Run.pure_result]
  | cons c pre ih =>
    simp only [List.cons_append, runHandlerCalls_cons_result, ih]
    constructor
    · rintro ⟨w1, h1, w3, h3, h4⟩
      exact ⟨w3, ⟨w1, h1, h3⟩, h4⟩
    · rintro ⟨w3, ⟨w1, h1, h3⟩, h4⟩
      exact ⟨w1, h1, w3, h3, h4⟩

theorem concreteType_string : ConcreteType String Kind.String := by
  refine ⟨fun _ => rfl, fun v => ?_⟩
  simp [GoType.isZero, GoType.zero]

theorem concreteType_pointer : ConcreteType Pointer Kind.Ptr := by
  refine ⟨fun _ => rfl, fun v => ?_⟩
  cases v with
  | mk addr => cases addr <;> simp [GoType.isZero, GoType.zero]

/-! ## `GetTraceValues` -/

/-- C6: for every context, that is every state `w` reached from
`NewObservabilityHandler` by handler calls `cs`, `GetTraceValues` returns an
error exactly when `cs` holds no `StartSpan`, and then the `TraceValues` returned
are the zero ones; and when `cs` is `pre`, then a `StartSpan`, then calls `post`
that are no `StartSpan`, it returns without error the identifiers of the span
that this last `StartSpan` started, and both strings are non-empty. -/
theorem GetTraceValues_error_iff_unstarted {T : Type} [GoType T] (st : Store T) (ctx : Context)
    (svc : String) (lg : Option Logger) (cs : List (HandlerCall T))
    (w : Store T × ObservabilityContext T)
    (hrun : (runHandlerCalls (st, NewObservabilityHandler ctx svc lg) cs).result = some w) :
    (w.2.GetTraceValues.2 ≠ none ↔ ∀ c ∈ cs, c.isStartSpan = false) ∧
    (w.2.GetTraceValues.2 ≠ none → w.2.GetTraceValues.1 = ⟨"", ""⟩) ∧
    (∀ (pre post : List (HandlerCall T)) (tr : Tracer) (name : String)
        (opts : List SpanStartOption),
      cs = pre ++ HandlerCall.StartSpan tr name opts :: post →
      (∀ c ∈ post, c.isStartSpan = false) →
      ∃ w1, (runHandlerCalls (st, NewObservabilityHandler ctx svc lg) pre).result = some w1 ∧
        w.2.GetTraceValues
          = (⟨(tr.Start w1.2.ctx w1.2.serviceName name opts).2.spanContext.traceID.String,
              (tr.Start w1.2.ctx w1.2.serviceName name opts).2.spanContext.spanID.String⟩, none) ∧
        (tr.Start w1.2.ctx w1.2.serviceName name opts).2.spanContext.traceID.String ≠ "" ∧
        (tr.Start w1.2.ctx w1.2.serviceName name opts).2.spanContext.spanID.String ≠ "") := by
  have hspan := runHandlerCalls_span_none cs _ w hrun
  have hnew : (NewObservabilityHandler ctx svc lg : ObservabilityContext T).span = none := rfl
  simp only [hnew, true_and] at hspan
  have herr : w.2.GetTraceValues.2 ≠ none ↔ w.2.span = none := by
    cases hs : w.2.span with
    | none => simp [GetTraceValues_unstarted w.2 hs]
    | some sp => simp [GetTraceValues_started w.2 sp hs]
  refine ⟨herr.trans hspan, fun he => ?_, ?_⟩
  · rw [GetTraceValues_unstarted w.2 (herr.1 he)]
  · intro pre post tr name opts hcs hpost
    subst hcs
    obtain ⟨w1, h1, h2⟩ := (runHandlerCalls_append_result pre _ _ w).1 hrun
    obtain ⟨w3, h3, h4⟩ := (runHandlerCalls_cons_result w1 w _ post).1 h2
    simp only [HandlerCall.run, Run.pure_result] at h3
    subst h3
    obtain ⟨k1, k2, k3⟩ := runHandlerCalls_keep_span post _ w h4 hpost
    refine ⟨w1, h1, ?_, traceID_String_ne_empty _, spanID_String_ne_empty _⟩
    have hs : w.2.span = some (tr.Start w1.2.ctx w1.2.serviceName name opts).2 := k1
    rw [GetTraceValues_started w.2 _ hs, k2, k3]
    rfl

/-- Witness of C6: the demo context after one `StartSpan`. -/
theorem GetTraceValues_error_iff_unstarted_witness :
    (runHandlerCalls (Store.empty String, demoFresh)
        [HandlerCall.StartSpan demoTracer "op" []]).result
      = some (Store.empty String, demoStarted) ∧
    (demoStarted.GetTraceValues.2 ≠ none ↔
      ∀ c ∈ [HandlerCall.StartSpan (T := String) demoTracer "op" []], c.isStartSpan = false) :=
  ⟨rfl, (GetTraceValues_error_iff_unstarted (Store.empty String) ⟨0⟩ "svc" (some demoLogger)
    [HandlerCall.StartSpan demoTracer "op" []] (Store.empty String, demoStarted) rfl).1⟩

/-! ## `SetTracingFormat` -/

/-- C8: for every context whose stored tracing format is set, that is, differs
from the zero value of the attribute type (a type that is not an interface type),
`SetTracingFormat` returns the error "tracing format already set", makes no
external call, so `tracingSetup` is not invoked, and leaves the context, with
all its fields, as it was. -/
theorem SetTracingFormat_already_set {T : Type} [GoType T] (k : Kind) (hT : ConcreteType T k)
    (oc : ObservabilityContext T) (hset : oc.tracingFormat ≠ GoType.zero)
    (tracingSetup : String → TraceValues → T) :
    oc.SetTracingFormat tracingSetup = ⟨[], some (oc, some "tracing format already set")⟩ :=
  SetTracingFormat_of_set oc tracingSetup (isNil_of_ne_zero hT _ hset)

/-- Witness of C8: the demo context with its format set. -/
theorem SetTracingFormat_already_set_witness :
    (ConcreteType String Kind.String ∧ demoFormatted.tracingFormat ≠ GoType.zero) ∧
    demoFormatted.SetTracingFormat (fun _ _ => "other")
      = ⟨[], some (demoFormatted, some "tracing format already set")⟩ :=
  ⟨⟨concreteType_string, by decide⟩,
    SetTracingFormat_already_set Kind.String concreteType_string demoFormatted (by decide) _⟩

/-- C1, as stated, fails: on a fresh context over strings a first
`SetTracingFormat` whose setup function returns the empty string succeeds and
stores the zero value, and the next call on that context succeeds again, with no
"already set" error, and replaces the stored format. Moreover, over a pointer
type the first call on a fresh context already returns the "already set" error,
and over an interface type the first call panics. -/
theorem SetTracingFormat_twice_counterexample :
    ((demoFresh.SetTracingFormat (fun _ _ => "")).result = some (demoFresh, none) ∧
      (demoFresh.SetTracingFormat (fun _ _ => "x")).result
        = some ({ demoFresh with tracingFormat := "x" }, none) ∧
      ({ demoFresh with tracingFormat := "x" } : ObservabilityContext String).tracingFormat
        ≠ demoFresh.tracingFormat) ∧
    ((NewObservabilityHandler ⟨0⟩ "svc" (some demoLogger) :
          ObservabilityContext Pointer).SetTracingFormat (fun _ _ => ⟨some 1⟩)).result
      = some (NewObservabilityHandler ⟨0⟩ "svc" (some demoLogger),
          some "tracing format already set") ∧
    ((NewObservabilityHandler ⟨0⟩ "svc" (some demoLogger) :
          ObservabilityContext Boxed).SetTracingFormat (fun _ _ => ⟨some "t"⟩)).result
      = none := by
  decide

/-- C1, amended: on a context created by `NewObservabilityHandler` whose attribute
type is neither an interface type nor a pointer type, the first call of
`SetTracingFormat`, after any handler calls `pre`, returns no error and stores
the result of `tracingSetup`; when that result is not the zero value of the
attribute type, every later call on the context, after any handler calls
`later`, returns the error "tracing format already set", calls nothing, and
leaves the context as it was, its stored format still the value of the first call. -/
theorem SetTracingFormat_once {T : Type} [GoType T] (k : Kind) (hT : ConcreteType T k)
    (hk : k ≠ Kind.Ptr) (st : Store T) (ctx : Context) (svc : String) (lg : Option Logger)
    (pre : List (HandlerCall T)) (w1 : Store T × ObservabilityContext T)
    (hpre : ∀ c ∈ pre, c.isSetTracingFormat = false)
    (hrun : (runHandlerCalls (st, NewObservabilityHandler ctx svc lg) pre).result = some w1)
    (f : String → TraceValues → T) :
    w1.2.SetTracingFormat f
      = ⟨[Effect.TracingSetup "tracing" w1.2.GetTraceValues.1],
          some ({ w1.2 with tracingFormat := f "tracing" w1.2.GetTraceValues.1 }, none)⟩ ∧
    (f "tracing" w1.2.GetTraceValues.1 ≠ GoType.zero →
      ∀ (st2 : Store T) (later : List (HandlerCall T)) (w2 : Store T × ObservabilityContext T),
        (runHandlerCalls
            (st2, { w1.2 with tracingFormat := f "tracing" w1.2.GetTraceValues.1 }) later).result
          = some w2 →
        ∀ g : String → TraceValues → T,
          w2.2.SetTracingFormat g = ⟨[], some (w2.2, some "tracing format already set")⟩ ∧
          w2.2.tracingFormat = f "tracing" w1.2.GetTraceValues.1) := by
  have hz : w1.2.tracingFormat = GoType.zero :=
    runHandlerCalls_keep_format pre _ w1 hrun (Or.inl hpre)
  constructor
  · apply SetTracingFormat_of_unset
    rw [hz]
    exact isNil_zero hT hk
  · intro hne st2 later w2 h2 g
    have hset : isNil (f "tracing" w1.2.GetTraceValues.1) = pure false :=
      isNil_of_ne_zero hT _ hne
    have hkeep := runHandlerCalls_keep_format later _ w2 h2 (Or.inr hset)
    have hkeep2 : w2.2.tracingFormat = f "tracing" w1.2.GetTraceValues.1 := hkeep
    refine ⟨SetTracingFormat_of_set w2.2 g ?_, hkeep2⟩
    rw [hkeep2]
    exact hset

/-- Witness of C1, amended: the demo context, `StartSpan` before the first call. -/
theorem SetTracingFormat_once_witness :
    (ConcreteType String Kind.String ∧ Kind.String ≠ Kind.Ptr ∧
      (∀ c ∈ [HandlerCall.StartSpan (T := String) demoTracer "op" []],
        c.isSetTracingFormat = false) ∧
      (runHandlerCalls (Store.empty String, demoFresh)
          [HandlerCall.StartSpan demoTracer "op" []]).result
        = some (Store.empty String, demoStarted)) ∧
    demoStarted.SetTracingFormat demoSetup
      = ⟨[Effect.TracingSetup "tracing" demoStarted.GetTraceValues.1],
          some ({ demoStarted with
            tracingFormat := demoSetup "tracing" demoStarted.GetTraceValues.1 }, none)⟩ :=
  ⟨⟨concreteType_string, by decide, by decide, rfl⟩,
    (SetTracingFormat_once Kind.String concreteType_string (by decide) (Store.empty String)
      ⟨0⟩ "svc" (some demoLogger) [HandlerCall.StartSpan demoTracer "op" []]
      (Store.empty String, demoStarted) (by decide) rfl demoSetup).1⟩

/-! ## The tracing format and the log line -/

/-- C2 at a failing input: after `StartSpan` and a successful `SetTracingFormat`,
a payload built with the builder that `CreateLogBuilder` returns is logged with
`LogInfo`. The format is stored and is not the zero value, the logger receives
exactly that payload, and its info values, read when the logger gets them, hold
the stored tracing format zero times. -/
theorem LogInfo_payload_lacks_tracing_format :
    demoLogLine.result.map (fun r => r.2.1.tracingFormat)
      = some "tracing=abababababababababababababababab/cdcdcdcdcdcdcdcd" ∧
    demoLogLine.effects.filter Effect.isLoggerCall
      = [Effect.LogInfo demoLogger ⟨"hello", none, Slice.null, Slice.null, Slice.null⟩] ∧
    demoLogLine.result.map (fun r => r.2.2)
      = some ⟨"hello", none, Slice.null, Slice.null, Slice.null⟩ ∧
    demoLogLine.result.map (fun r => r.1.read r.2.2.InfoValues) = some [] ∧
    demoLogLine.result.map (fun r => (r.1.read r.2.2.InfoValues).count r.2.1.tracingFormat)
      = some 0 := by
  decide

/-! ## Options and option collections -/

/-- C18: for every attribute type and every value `x`, `CreateLogValueOption(x)`
and `NewLogValueOption(x)` return an option whose `Attr` is `x` and whose
`debug`, `info` and `err` flags are all false. -/
theorem CreateLogValueOption_plain {T : Type} (lb : LogBuilder) (x : T) :
    ((lb.CreateLogValueOption x).Attr = x ∧ (lb.CreateLogValueOption x).debug = false ∧
      (lb.CreateLogValueOption x).info = false ∧ (lb.CreateLogValueOption x).err = false) ∧
    ((NewLogValueOption x).Attr = x ∧ (NewLogValueOption x).debug = false ∧
      (NewLogValueOption x).info = false ∧ (NewLogValueOption x).err = false) :=
  ⟨⟨rfl, rfl, rfl, rfl⟩, ⟨rfl, rfl, rfl, rfl⟩⟩

theorem Store.appendAll_null_read {P : Type} (st : Store P) (os : List P) :
    (st.appendAll Slice.null os).1.read (st.appendAll Slice.null os).2 = os ∧
    (st.appendAll Slice.null os).2.len = os.length := by
  unfold Store.appendAll
  split
  · next h =>
    have h0 : os = [] := by
      simp [Slice.null] at h
      exact h
    subst h0
    simp [Store.read, Slice.null]
  · next h =>
    simp [Store.read, Slice.null]

theorem addOptions_read {P : Type} (os : List P) (st : Store P) (s : Slice) (hs : s.Owned st) :
    (addOptions (st, s) os).1.read (addOptions (st, s) os).2 = st.read s ++ os ∧
    (addOptions (st, s) os).2.len = s.len + os.length := by
  induction os generalizing st s with
  | nil => simp [addOptions]
  | cons o os ih =>
    have h1 := st.append_read s o hs
    have h2 := st.append_owned s o hs
    have h3 : (st.append s o).2.len = s.len + 1 := by
      unfold Store.append
      split <;> rfl
    obtain ⟨i1, i2⟩ := ih _ _ h2
    simp only [addOptions, List.foldl_cons, LogValuesOptions.AddOption] at i1 i2 ⊢
    refine ⟨?_, ?_⟩
    · rw [i1, h1, List.append_assoc]
      rfl
    · rw [i2, h3, List.length_cons]
      omega

/-- C19: for every finite sequence of options, the empty one included,
`CreateLogValuesOptionsWith(o1, ..., on)` returns a collection of length `n`
whose elements are `o1`, ..., `on` in this order, and the collection obtained by
`AddOption(o1)`, ..., `AddOption(on)` in turn on `CreateLogValuesOptions()` has
the same length and the same elements. -/
theorem CreateLogValuesOptionsWith_eq_AddOption {P : Type} (lb : LogBuilder) (st : Store P)
    (os : List P) :
    LogValuesOptions.Len (lb.CreateLogValuesOptionsWith st os).2 = os.length ∧
    (lb.CreateLogValuesOptionsWith st os).1.read (lb.CreateLogValuesOptionsWith st os).2 = os ∧
    (∀ i : Nat,
      ((lb.CreateLogValuesOptionsWith st os).1.read (lb.CreateLogValuesOptionsWith st os).2)[i]?
        = os[i]?) ∧
    LogValuesOptions.Len (addOptions (st, lb.CreateLogValuesOptions) os).2
      = LogValuesOptions.Len (lb.CreateLogValuesOptionsWith st os).2 ∧
    (addOptions (st, lb.CreateLogValuesOptions) os).1.read
        (addOptions (st, lb.CreateLogValuesOptions) os).2
      = (lb.CreateLogValuesOptionsWith st os).1.read (lb.CreateLogValuesOptionsWith st os).2 := by
  obtain ⟨h1, h2⟩ := st.appendAll_null_read os
  have hown : Slice.Owned st (lb.CreateLogValuesOptions) := by
    simp [Slice.Owned, LogBuilder.CreateLogValuesOptions, NewLogValuesOptions]
  obtain ⟨h3, h4⟩ := addOptions_read os st _ hown
  have hread0 : st.read (lb.CreateLogValuesOptions) = [] := by
    simp [Store.read, LogBuilder.CreateLogValuesOptions, NewLogValuesOptions]
  have hlen0 : (lb.CreateLogValuesOptions).len = 0 := rfl
  simp only [LogBuilder.CreateLogValuesOptionsWith, LogValuesOptions.Len]
  refine ⟨h2, h1, fun i => by rw [h1], ?_, ?_⟩
  · rw [h4, h2, hlen0]
    omega
  · rw [h3, h1, hread0]
    rfl

/-- The example of the test `TestLogBuilder_CreateLogValuesOptionsWith`, with
the two options given by their addresses. -/
theorem CreateLogValuesOptionsWith_test :
    (NewLogBuilder.CreateLogValuesOptionsWith (Store.empty Nat) [101, 102]).1.read
      (NewLogBuilder.CreateLogValuesOptionsWith (Store.empty Nat) [101, 102]).2 = [101, 102] ∧
    (NewLogBuilder.CreateLogValuesOptionsWith (Store.empty Nat) []).2 = Slice.null := by
  decide

/-! ## Grouping does not depend on position -/

theorem FactoryLogValuesBuilder_reads {T : Type} (st : Store T) (os : LogValuesOptions T) :
    (FactoryLogValuesBuilder st os).1.read (FactoryLogValuesBuilder st os).2.debugValues
      = (os.filter fun o => o.debug).map (fun o => o.Attr) ∧
    (FactoryLogValuesBuilder st os).1.read (FactoryLogValuesBuilder st os).2.errorValues
      = (os.filter fun o => o.err && !o.debug).map (fun o => o.Attr) ∧
    (FactoryLogValuesBuilder st os).1.read (FactoryLogValuesBuilder st os).2.infoValues
      = (os.filter fun o => o.info && !o.debug && !o.err).map (fun o => o.Attr) := by
  obtain ⟨-, -, -, h4, h5, h6⟩ := factoryFold_spec os st _ (LogValuesBuilder.WF_new st)
  have r1 : st.read NewLogValuesBuilder.debugValues = [] := by
    simp [Store.read, NewLogValuesBuilder, Slice.null]
  have r2 : st.read NewLogValuesBuilder.errorValues = [] := by
    simp [Store.read, NewLogValuesBuilder, Slice.null]
  have r3 : st.read NewLogValuesBuilder.infoValues = [] := by
    simp [Store.read, NewLogValuesBuilder, Slice.null]
  rw [r1, List.nil_append] at h4
  rw [r2, List.nil_append] at h5
  rw [r3, List.nil_append] at h6
  exact ⟨h4, h5, h6⟩

/-- C20: when `os2` is a permutation of the option list `os`, each of the three
value lists of `FactoryLogValuesBuilder(os2)` is a permutation of the
corresponding list of `FactoryLogValuesBuilder(os)`; and for option lists `xs`
and `ys` each value list of `FactoryLogValuesBuilder(xs ++ ys)` is the list for
`xs` followed by the list for `ys`. -/
theorem FactoryLogValuesBuilder_perm {T : Type} (st : Store T) (os os2 xs ys : LogValuesOptions T)
    (hperm : os2.Perm os) :
    (((FactoryLogValuesBuilder st os2).1.read (FactoryLogValuesBuilder st os2).2.debugValues).Perm
        ((FactoryLogValuesBuilder st os).1.read (FactoryLogValuesBuilder st os).2.debugValues) ∧
      ((FactoryLogValuesBuilder st os2).1.read (FactoryLogValuesBuilder st os2).2.errorValues).Perm
        ((FactoryLogValuesBuilder st os).1.read (FactoryLogValuesBuilder st os).2.errorValues) ∧
      ((FactoryLogValuesBuilder st os2).1.read (FactoryLogValuesBuilder st os2).2.infoValues).Perm
        ((FactoryLogValuesBuilder st os).1.read (FactoryLogValuesBuilder st os).2.infoValues)) ∧
    ((FactoryLogValuesBuilder st (xs ++ ys)).1.read
          (FactoryLogValuesBuilder st (xs ++ ys)).2.debugValues
        = (FactoryLogValuesBuilder st xs).1.read (FactoryLogValuesBuilder st xs).2.debugValues ++
          (FactoryLogValuesBuilder st ys).1.read (FactoryLogValuesBuilder st ys).2.debugValues ∧
      (FactoryLogValuesBuilder st (xs ++ ys)).1.read
          (FactoryLogValuesBuilder st (xs ++ ys)).2.errorValues
        = (FactoryLogValuesBuilder st xs).1.read (FactoryLogValuesBuilder st xs).2.errorValues ++
          (FactoryLogValuesBuilder st ys).1.read (FactoryLogValuesBuilder st ys).2.errorValues ∧
      (FactoryLogValuesBuilder st (xs ++ ys)).1.read
          (FactoryLogValuesBuilder st (xs ++ ys)).2.infoValues
        = (FactoryLogValuesBuilder st xs).1.read (FactoryLogValuesBuilder st xs).2.infoValues ++
          (FactoryLogValuesBuilder st ys).1.read (FactoryLogValuesBuilder st ys).2.infoValues) := by
  obtain ⟨a1, a2, a3⟩ := FactoryLogValuesBuilder_reads st os
  obtain ⟨b1, b2, b3⟩ := FactoryLogValuesBuilder_reads st os2
  obtain ⟨c1, c2, c3⟩ := FactoryLogValuesBuilder_reads st xs
  obtain ⟨d1, d2, d3⟩ := FactoryLogValuesBuilder_reads st ys
  obtain ⟨e1, e2, e3⟩ := FactoryLogValuesBuilder_reads st (xs ++ ys)
  refine ⟨⟨?_, ?_, ?_⟩, ?_, ?_, ?_⟩
  · rw [a1, b1]
    exact (hperm.filter _).map _
  · rw [a2, b2]
    exact (hperm.filter _).map _
  · rw [a3, b3]
    exact (hperm.filter _).map _
  · rw [e1, c1, d1, List.filter_append, List.map_append]
  · rw [e2, c2, d2, List.filter_append, List.map_append]
  · rw [e3, c3, d3, List.filter_append, List.map_append]

/-- Witness of C20: an info option and a debug option, in both orders. -/
theorem FactoryLogValuesBuilder_perm_witness :
    ([⟨"d", true, false, false⟩, ⟨"i", false, true, false⟩] : LogValuesOptions String).Perm
      [⟨"i", false, true, false⟩, ⟨"d", true, false, false⟩] ∧
    ((FactoryLogValuesBuilder (Store.empty String)
        [⟨"d", true, false, false⟩, ⟨"i", false, true, false⟩]).1.read
      (FactoryLogValuesBuilder (Store.empty String)
        [⟨"d", true, false, false⟩, ⟨"i", false, true, false⟩]).2.debugValues).Perm
      ((FactoryLogValuesBuilder (Store.empty String)
        [⟨"i", false, true, false⟩, ⟨"d", true, false, false⟩]).1.read
      (FactoryLogValuesBuilder (Store.empty String)
        [⟨"i", false, true, false⟩, ⟨"d", true, false, false⟩]).2.debugValues) :=
  ⟨List.Perm.swap _ _ _,
    (FactoryLogValuesBuilder_perm (Store.empty String)
      [⟨"i", false, true, false⟩, ⟨"d", true, false, false⟩]
      [⟨"d", true, false, false⟩, ⟨"i", false, true, false⟩] [] []
      (List.Perm.swap _ _ _)).1.1⟩

/-! ## The zap adapter -/

/-- C13: for every payload `lv`, each method of a `ZapLogger` over a logger `z`
makes exactly one call on `z`, with message `lv.Msg()`: `LogInfo` calls `Info`
with the fields `lv.InfoValues()`, `LogDebug` calls `Debug` with
`lv.DebugValues()`, `LogError` calls `Error` with `lv.ErrorValues()`; and for
every context value each context method does the same as its counterpart
without context. -/
theorem ZapLogger_forwards (l : ZapLogger) (z : ZapCore) (hl : l.logger = some z)
    (lv : LogValues) (ctx : Context) :
    l.LogInfo lv = some [ZapCall.Info z lv.Msg lv.InfoValues] ∧
    l.LogDebug lv = some [ZapCall.Debug z lv.Msg lv.DebugValues] ∧
    l.LogError lv = some [ZapCall.Error z lv.Msg lv.ErrorValues] ∧
    l.LogInfoContext ctx lv = l.LogInfo lv ∧
    l.LogDebugContext ctx lv = l.LogDebug lv ∧
    l.LogErrorContext ctx lv = l.LogError lv := by
  simp [ZapLogger.LogInfo, ZapLogger.LogDebug, ZapLogger.LogError, ZapLogger.LogInfoContext,
    ZapLogger.LogDebugContext, ZapLogger.LogErrorContext, zapCall, hl]

/-- Witness of C13: the payload of the adapter's tests, one field in each list. -/
theorem ZapLogger_forwards_witness :
    (NewZapLogger (some ⟨1⟩)).logger = some ⟨1⟩ ∧
    (NewZapLogger (some ⟨1⟩)).LogInfo ⟨"test message", none, ⟨1, 1, 1⟩, ⟨2, 1, 1⟩, ⟨0, 1, 1⟩⟩
      = some [ZapCall.Info ⟨1⟩
          (LogValues.Msg ⟨"test message", none, ⟨1, 1, 1⟩, ⟨2, 1, 1⟩, ⟨0, 1, 1⟩⟩)
          (LogValues.InfoValues ⟨"test message", none, ⟨1, 1, 1⟩, ⟨2, 1, 1⟩, ⟨0, 1, 1⟩⟩)] :=
  ⟨rfl, (ZapLogger_forwards (NewZapLogger (some ⟨1⟩)) ⟨1⟩ rfl
    ⟨"test message", none, ⟨1, 1, 1⟩, ⟨2, 1, 1⟩, ⟨0, 1, 1⟩⟩ ⟨0⟩).1⟩

/-! ## The context methods of the handler -/

theorem HandlerCall.run_keep {T : Type} [GoType T] (w w2 : Store T × ObservabilityContext T)
    (c : HandlerCall T) (h : (c.run w).result = some w2) (hc : c.isStartSpan = false) :
    w2.2 = { w.2 with tracingFormat := w2.2.tracingFormat } := by
  cases c with
  | StartSpan tr name opts => simp [HandlerCall.isStartSpan] at hc
  | GetTraceValues =>
    simp only [HandlerCall.run, Run.pure_result] at h
    subst h
    rfl
  | SetTracingFormat f =>
    simp only [HandlerCall.run, Run.bind_result, Run.pure_result] at h
    obtain ⟨r, hr, rfl⟩ := h
    rcases SetTracingFormat_result w.2 f r hr with ⟨-, he⟩ | ⟨-, he⟩
    · simp only [he]
    · simp only [he]
  | CreateLogBuilder =>
    simp only [HandlerCall.run, Run.bind_result, Run.pure_result] at h
    obtain ⟨r, -, rfl⟩ := h
    rfl
  | LogInfo lv opts =>
    simp only [HandlerCall.run, Run.bind_result, Run.pure_result] at h
    obtain ⟨r, -, rfl⟩ := h
    rfl
  | LogError lv opts =>
    simp only [HandlerCall.run, Run.bind_result, Run.pure_result] at h
    obtain ⟨r, -, rfl⟩ := h
    rfl
  | LogDebug lv opts =>
    simp only [HandlerCall.run, Run.bind_result, Run.pure_result] at h
    obtain ⟨r, -, rfl⟩ := h
    rfl
  | LogInfoContext lv opts =>
    simp only [HandlerCall.run, Run.bind_result, Run.pure_result] at h
    obtain ⟨r, -, rfl⟩ := h
    rfl
  | LogErrorContext lv opts =>
    simp only [HandlerCall.run, Run.bind_result, Run.pure_result] at h
    obtain ⟨r, -, rfl⟩ := h
    rfl
  | LogDebugContext lv opts =>
    simp only [HandlerCall.run, Run.bind_result, Run.pure_result] at h
    obtain ⟨r, -, rfl⟩ := h
    rfl

theorem runHandlerCalls_keep {T : Type} [GoType T] (cs : List (HandlerCall T))
    (w w2 : Store T × ObservabilityContext T) (h : (runHandlerCalls w cs).result = some w2)
    (hcs : ∀ c ∈ cs, c.isStartSpan = false) :
    w2.2 = { w.2 with tracingFormat := w2.2.tracingFormat } := by
  induction cs generalizing w with
  | nil =>
    simp only [runHandlerCalls, Run.pure_result] at h
    subst h
    rfl
  | cons c cs ih =>
    obtain ⟨w1, h1, h2⟩ := (runHandlerCalls_cons_result w w2 c cs).1 h
    have e1 := HandlerCall.run_keep w w1 c h1 (hcs c (List.mem_cons_self _ _))
    have e2 := ih w1 h2 (fun d hd => hcs d (List.mem_cons_of_mem _ hd))
    rw [e2, e1]

/-- C12: on a context that was started by `StartSpan` and then used by any
calls other than `StartSpan`, with a logger injected, `LogInfoContext`,
`LogErrorContext` and `LogDebugContext` make the same call on the span as
`LogInfo`, `LogError` and `LogDebug`, and then call the logger exactly once,
through the matching context method, with the context handle that this latest
`StartSpan` returned and with `lv` unchanged. -/
theorem LogContext_fan_out {T : Type} [GoType T] (st : Store T) (oc0 : ObservabilityContext T)
    (tr : Tracer) (name : String) (opts : List SpanStartOption) (post : List (HandlerCall T))
    (w : Store T × ObservabilityContext T) (lg : Logger) (hl : oc0.logger = some lg)
    (hpost : ∀ c ∈ post, c.isStartSpan = false)
    (hrun : (runHandlerCalls (st, (oc0.StartSpan tr name opts).1) post).result = some w)
    (lv : LogValues) (o : List EventOption) :
    (w.2.LogInfoContext lv o
        = ⟨[Effect.AddEvent (oc0.StartSpan tr name opts).2.2 lv.Msg (w.2.traceOptions ++ o),
            Effect.LogInfoContext lg (oc0.StartSpan tr name opts).2.1 lv], some ()⟩ ∧
      w.2.LogErrorContext lv o
        = ⟨[Effect.RecordError (oc0.StartSpan tr name opts).2.2 lv.Err (w.2.traceOptions ++ o),
            Effect.LogErrorContext lg (oc0.StartSpan tr name opts).2.1 lv], some ()⟩ ∧
      w.2.LogDebugContext lv o
        = ⟨[Effect.AddEvent (oc0.StartSpan tr name opts).2.2 lv.Msg (w.2.traceOptions ++ o),
            Effect.LogDebugContext lg (oc0.StartSpan tr name opts).2.1 lv], some ()⟩) ∧
    ((w.2.LogInfoContext lv o).effects.filter (fun e => !e.isLoggerCall)
        = (w.2.LogInfo lv o).effects.filter (fun e => !e.isLoggerCall) ∧
      (w.2.LogErrorContext lv o).effects.filter (fun e => !e.isLoggerCall)
        = (w.2.LogError lv o).effects.filter (fun e => !e.isLoggerCall) ∧
      (w.2.LogDebugContext lv o).effects.filter (fun e => !e.isLoggerCall)
        = (w.2.LogDebug lv o).effects.filter (fun e => !e.isLoggerCall)) := by
  have hk := runHandlerCalls_keep post _ w hrun hpost
  have hs : w.2.span = some (oc0.StartSpan tr name opts).2.2 := by rw [hk]; rfl
  have hc : w.2.ctx = (oc0.StartSpan tr name opts).2.1 := by rw [hk]; rfl
  have hlg : w.2.logger = some lg := by rw [hk]; exact hl
  simp [ObservabilityContext.LogInfoContext, ObservabilityContext.LogErrorContext,
    ObservabilityContext.LogDebugContext, ObservabilityContext.LogInfo,
    ObservabilityContext.LogError, ObservabilityContext.LogDebug, spanAddEvent, spanRecordError,
    loggerCall, withTraceOptions, hs, hc, hlg, Bind.bind, Run.bind, Run.emit,
    Effect.isLoggerCall]

/-- Witness of C12: the started demo context, with a `GetTraceValues` call in between. -/
theorem LogContext_fan_out_witness :
    (demoFresh.logger = some demoLogger ∧
      (∀ c ∈ [HandlerCall.GetTraceValues (T := String)], c.isStartSpan = false) ∧
      (runHandlerCalls (Store.empty String, (demoFresh.StartSpan demoTracer "op" []).1)
          [HandlerCall.GetTraceValues]).result = some (Store.empty String, demoStarted)) ∧
    demoStarted.LogInfoContext ⟨"hello", none, Slice.null, Slice.null, Slice.null⟩ []
      = ⟨[Effect.AddEvent (demoFresh.StartSpan demoTracer "op" []).2.2
            (LogValues.Msg ⟨"hello", none, Slice.null, Slice.null, Slice.null⟩)
            (demoStarted.traceOptions ++ []),
          Effect.LogInfoContext demoLogger (demoFresh.StartSpan demoTracer "op" []).2.1
            ⟨"hello", none, Slice.null, Slice.null, Slice.null⟩], some ()⟩ :=
  ⟨⟨rfl, by decide, rfl⟩,
    (LogContext_fan_out (Store.empty String) demoFresh demoTracer "op" []
      [HandlerCall.GetTraceValues] (Store.empty String, demoStarted) demoLogger rfl (by decide) rfl
      ⟨"hello", none, Slice.null, Slice.null, Slice.null⟩ []).1.1⟩

/-! ## The builder methods, call by call and in sequence -/

theorem BuilderCall.run_spec {T : Type} (st : Store T) (b : LogValuesBuilder) (c : BuilderCall T)
    (h : b.WF st) :
    (c.run (st, b)).2.msg = (c.msgArg).getD b.msg ∧
    (c.run (st, b)).2.err = b.err ∧
    (c.run (st, b)).1.read (c.run (st, b)).2.infoValues
      = st.read b.infoValues ++ (c.infoArg).toList ∧
    (c.run (st, b)).1.read (c.run (st, b)).2.debugValues
      = st.read b.debugValues ++ (c.debugArg).toList ∧
    (c.run (st, b)).1.read (c.run (st, b)).2.errorValues
      = st.read b.errorValues ++ (c.errorArg).toList := by
  cases c with
  | WithMsg msg =>
    simp [BuilderCall.run, LogValuesBuilder.WithMsg, BuilderCall.msgArg, BuilderCall.infoArg,
      BuilderCall.debugArg, BuilderCall.errorArg]
  | WithInfoValue x =>
    obtain ⟨-, m, e, ri, rd, re⟩ := LogValuesBuilder.WithInfoValue_spec st b x h
    simp only [BuilderCall.run, BuilderCall.msgArg, BuilderCall.infoArg, BuilderCall.debugArg,
      BuilderCall.errorArg, Option.getD_none, Option.toList, List.append_nil]
    exact ⟨m, e, ri, rd, re⟩
  | WithDebugValue x =>
    obtain ⟨-, m, e, ri, rd, re⟩ := LogValuesBuilder.WithDebugValue_spec st b x h
    simp only [BuilderCall.run, BuilderCall.msgArg, BuilderCall.infoArg, BuilderCall.debugArg,
      BuilderCall.errorArg, Option.getD_none, Option.toList, List.append_nil]
    exact ⟨m, e, ri, rd, re⟩
  | WithErrorValue x =>
    obtain ⟨-, m, e, ri, rd, re⟩ := LogValuesBuilder.WithErrorValue_spec st b x h
    simp only [BuilderCall.run, BuilderCall.msgArg, BuilderCall.infoArg, BuilderCall.debugArg,
      BuilderCall.errorArg, Option.getD_none, Option.toList, List.append_nil]
    exact ⟨m, e, ri, rd, re⟩

theorem filterMap_cons_toList {α β : Type} (f : α → Option β) (a : α) (l : List α) :
    (a :: l).filterMap f = (f a).toList ++ l.filterMap f := by
  cases h : f a <;> simp [List.filterMap_cons, h, Option.toList]

theorem runBuilderCalls_contents {T : Type} (calls : List (BuilderCall T)) (st : Store T)
    (b : LogValuesBuilder) (h : b.WF st) :
    (runBuilderCalls (st, b) calls).2.msg = lastMsg b.msg calls ∧
    (runBuilderCalls (st, b) calls).2.err = b.err ∧
    (runBuilderCalls (st, b) calls).1.read (runBuilderCalls (st, b) calls).2.infoValues
      = st.read b.infoValues ++ calls.filterMap BuilderCall.infoArg ∧
    (runBuilderCalls (st, b) calls).1.read (runBuilderCalls (st, b) calls).2.debugValues
      = st.read b.debugValues ++ calls.filterMap BuilderCall.debugArg ∧
    (runBuilderCalls (st, b) calls).1.read (runBuilderCalls (st, b) calls).2.errorValues
      = st.read b.errorValues ++ calls.filterMap BuilderCall.errorArg := by
  induction calls generalizing st b with
  | nil => simp [runBuilderCalls, lastMsg]
  | cons c cs ih =>
    obtain ⟨s1, s2, s3, s4, s5⟩ := BuilderCall.run_spec st b c h
    obtain ⟨i1, i2, i3, i4, i5⟩ := ih _ _ (BuilderCall.run_WF st b c h)
    simp only [runBuilderCalls, List.foldl_cons, lastMsg] at i1 i2 i3 i4 i5 ⊢
    refine ⟨?_, i2.trans s2, ?_, ?_, ?_⟩
    · rw [i1, s1]
    · rw [i3, s3, filterMap_cons_toList, List.append_assoc]
    · rw [i4, s4, filterMap_cons_toList, List.append_assoc]
    · rw [i5, s5, filterMap_cons_toList, List.append_assoc]

theorem runBuilderCalls_new_contents {T : Type} (calls : List (BuilderCall T)) (st : Store T) :
    (runBuilderCalls (st, NewLogValuesBuilder) calls).2.msg = lastMsg "" calls ∧
    (runBuilderCalls (st, NewLogValuesBuilder) calls).2.err = none ∧
    (runBuilderCalls (st, NewLogValuesBuilder) calls).1.read
        (runBuilderCalls (st, NewLogValuesBuilder) calls).2.infoValues
      = calls.filterMap BuilderCall.infoArg ∧
    (runBuilderCalls (st, NewLogValuesBuilder) calls).1.read
        (runBuilderCalls (st, NewLogValuesBuilder) calls).2.debugValues
      = calls.filterMap BuilderCall.debugArg ∧
    (runBuilderCalls (st, NewLogValuesBuilder) calls).1.read
        (runBuilderCalls (st, NewLogValuesBuilder) calls).2.errorValues
      = calls.filterMap BuilderCall.errorArg := by
  obtain ⟨h1, h2, h3, h4, h5⟩ := runBuilderCalls_contents calls st _ (LogValuesBuilder.WF_new st)
  have r1 : st.read NewLogValuesBuilder.debugValues = [] := by
    simp [Store.read, NewLogValuesBuilder, Slice.null]
  have r2 : st.read NewLogValuesBuilder.errorValues = [] := by
    simp [Store.read, NewLogValuesBuilder, Slice.null]
  have r3 : st.read NewLogValuesBuilder.infoValues = [] := by
    simp [Store.read, NewLogValuesBuilder, Slice.null]
  rw [r3, List.nil_append] at h3
  rw [r1, List.nil_append] at h4
  rw [r2, List.nil_append] at h5
  exact ⟨h1, h2, h3, h4, h5⟩

/-- C16: for every builder, that is the builder `b` reached from a new builder
by any calls, in the store `st1` reached with it: `WithInfoValue(x)` puts `x` at
the end of the info values and leaves the message, the error, the debug values
and the error values as they were, likewise `WithDebugValue` and
`WithErrorValue` for their lists, and `WithMsg(m)` sets the message to `m` and
leaves the rest; so after the calls each list holds exactly the arguments passed
to its method, in call order. Each method returns its receiver, which is here the
updated builder. -/
theorem With_methods_accumulate {T : Type} (st : Store T) (calls : List (BuilderCall T))
    (x : T) (m : String) :
    ((LogValuesBuilder.WithInfoValue (runBuilderCalls (st, NewLogValuesBuilder) calls).1
          (runBuilderCalls (st, NewLogValuesBuilder) calls).2 x).2.Build.observe
        (LogValuesBuilder.WithInfoValue (runBuilderCalls (st, NewLogValuesBuilder) calls).1
          (runBuilderCalls (st, NewLogValuesBuilder) calls).2 x).1
      = ((runBuilderCalls (st, NewLogValuesBuilder) calls).2.msg,
         (runBuilderCalls (st, NewLogValuesBuilder) calls).2.err,
         (runBuilderCalls (st, NewLogValuesBuilder) calls).1.read
           (runBuilderCalls (st, NewLogValuesBuilder) calls).2.infoValues ++ [x],
         (runBuilderCalls (st, NewLogValuesBuilder) calls).1.read
           (runBuilderCalls (st, NewLogValuesBuilder) calls).2.debugValues,
         (runBuilderCalls (st, NewLogValuesBuilder) calls).1.read
           (runBuilderCalls (st, NewLogValuesBuilder) calls).2.errorValues)) ∧
    ((LogValuesBuilder.WithDebugValue (runBuilderCalls (st, NewLogValuesBuilder) calls).1
          (runBuilderCalls (st, NewLogValuesBuilder) calls).2 x).2.Build.observe
        (LogValuesBuilder.WithDebugValue (runBuilderCalls (st, NewLogValuesBuilder) calls).1
          (runBuilderCalls (st, NewLogValuesBuilder) calls).2 x).1
      = ((runBuilderCalls (st, NewLogValuesBuilder) calls).2.msg,
         (runBuilderCalls (st, NewLogValuesBuilder) calls).2.err,
         (runBuilderCalls (st, NewLogValuesBuilder) calls).1.read
           (runBuilderCalls (st, NewLogValuesBuilder) calls).2.infoValues,
         (runBuilderCalls (st, NewLogValuesBuilder) calls).1.read
           (runBuilderCalls (st, NewLogValuesBuilder) calls).2.debugValues ++ [x],
         (runBuilderCalls (st, NewLogValuesBuilder) calls).1.read
           (runBuilderCalls (st, NewLogValuesBuilder) calls).2.errorValues)) ∧
    ((LogValuesBuilder.WithErrorValue (runBuilderCalls (st, NewLogValuesBuilder) calls).1
          (runBuilderCalls (st, NewLogValuesBuilder) calls).2 x).2.Build.observe
        (LogValuesBuilder.WithErrorValue (runBuilderCalls (st, NewLogValuesBuilder) calls).1
          (runBuilderCalls (st, NewLogValuesBuilder) calls).2 x).1
      = ((runBuilderCalls (st, NewLogValuesBuilder) calls).2.msg,
         (runBuilderCalls (st, NewLogValuesBuilder) calls).2.err,
         (runBuilderCalls (st, NewLogValuesBuilder) calls).1.read
           (runBuilderCalls (st, NewLogValuesBuilder) calls).2.infoValues,
         (runBuilderCalls (st, NewLogValuesBuilder) calls).1.read
           (runBuilderCalls (st, NewLogValuesBuilder) calls).2.debugValues,
         (runBuilderCalls (st, NewLogValuesBuilder) calls).1.read
           (runBuilderCalls (st, NewLogValuesBuilder) calls).2.errorValues ++ [x])) ∧
    (((runBuilderCalls (st, NewLogValuesBuilder) calls).2.WithMsg m).Build.observe
        (runBuilderCalls (st, NewLogValuesBuilder) calls).1
      = (m,
         (runBuilderCalls (st, NewLogValuesBuilder) calls).2.err,
         (runBuilderCalls (st, NewLogValuesBuilder) calls).1.read
           (runBuilderCalls (st, NewLogValuesBuilder) calls).2.infoValues,
         (runBuilderCalls (st, NewLogValuesBuilder) calls).1.read
           (runBuilderCalls (st, NewLogValuesBuilder) calls).2.debugValues,
         (runBuilderCalls (st, NewLogValuesBuilder) calls).1.read
           (runBuilderCalls (st, NewLogValuesBuilder) calls).2.errorValues)) ∧
    ((runBuilderCalls (st, NewLogValuesBuilder) calls).1.read
        (runBuilderCalls (st, NewLogValuesBuilder) calls).2.infoValues
        = calls.filterMap BuilderCall.infoArg ∧
      (runBuilderCalls (st, NewLogValuesBuilder) calls).1.read
        (runBuilderCalls (st, NewLogValuesBuilder) calls).2.debugValues
        = calls.filterMap BuilderCall.debugArg ∧
      (runBuilderCalls (st, NewLogValuesBuilder) calls).1.read
        (runBuilderCalls (st, NewLogValuesBuilder) calls).2.errorValues
        = calls.filterMap BuilderCall.errorArg ∧
      (runBuilderCalls (st, NewLogValuesBuilder) calls).2.msg = lastMsg "" calls) := by
  have hwf := runBuilderCalls_WF calls st _ (LogValuesBuilder.WF_new st)
  obtain ⟨-, a1, a2, a3, a4, a5⟩ := LogValuesBuilder.WithInfoValue_spec _ _ x hwf
  obtain ⟨-, b1, b2, b3, b4, b5⟩ := LogValuesBuilder.WithDebugValue_spec _ _ x hwf
  obtain ⟨-, c1, c2, c3, c4, c5⟩ := LogValuesBuilder.WithErrorValue_spec _ _ x hwf
  obtain ⟨d1, -, d3, d4, d5⟩ := runBuilderCalls_new_contents calls st
  refine ⟨?_, ?_, ?_, rfl, ⟨d3, d4, d5, d1⟩⟩
  · simp only [LogValues.observe, LogValuesBuilder.Build, LogValues.Msg, LogValues.Err,
      LogValues.InfoValues, LogValues.DebugValues, LogValues.ErrorValues, a1, a2, a3, a4, a5]
  · simp only [LogValues.observe, LogValuesBuilder.Build, LogValues.Msg, LogValues.Err,
      LogValues.InfoValues, LogValues.DebugValues, LogValues.ErrorValues, b1, b2, b3, b4, b5]
  · simp only [LogValues.observe, LogValuesBuilder.Build, LogValues.Msg, LogValues.Err,
      LogValues.InfoValues, LogValues.DebugValues, LogValues.ErrorValues, c1, c2, c3, c4, c5]

/-- The examples of the tests `TestLogValuesBuilder_WithMsg` to
`TestLogValuesBuilder_WithErrorValue`, in one chain. -/
theorem With_methods_test :
    (runBuilderCalls (Store.empty String, NewLogValuesBuilder)
        [.WithInfoValue "foo", .WithDebugValue "bar", .WithMsg "hello", .WithErrorValue "baz",
         .WithInfoValue "foo2"]).2.Build.observe
      (runBuilderCalls (Store.empty String, NewLogValuesBuilder)
        [.WithInfoValue "foo", .WithDebugValue "bar", .WithMsg "hello", .WithErrorValue "baz",
         .WithInfoValue "foo2"]).1
      = ("hello", none, ["foo", "foo2"], ["bar"], ["baz"]) := by
  decide

/-- C17: for every builder state `b`, `Build()` returns a value whose `Msg()`,
`Err()`, `InfoValues()`, `DebugValues()` and `ErrorValues()` are the message, the
error and the three value lists of `b`; `Build` only reads, so it is a function
of the builder, which with the store stays as it was, and two consecutive
`Build()` give the same value; and on a builder reached from a new one by calls
`calls`, a `Build()` after further calls `more` gives the message set last and
the lists of the first `Build()` followed by the values that `more` passed. -/
theorem Build_reflects_builder {T : Type} (st : Store T) (b : LogValuesBuilder)
    (calls more : List (BuilderCall T)) :
    (b.Build.observe st
      = (b.msg, b.err, st.read b.infoValues, st.read b.debugValues, st.read b.errorValues)) ∧
    ((runBuilderCalls (st, NewLogValuesBuilder) (calls ++ more)).2.Build.observe
        (runBuilderCalls (st, NewLogValuesBuilder) (calls ++ more)).1
      = (lastMsg (LogValues.observe (runBuilderCalls (st, NewLogValuesBuilder) calls).1
            (runBuilderCalls (st, NewLogValuesBuilder) calls).2.Build).1 more,
         none,
         (LogValues.observe (runBuilderCalls (st, NewLogValuesBuilder) calls).1
            (runBuilderCalls (st, NewLogValuesBuilder) calls).2.Build).2.2.1
           ++ more.filterMap BuilderCall.infoArg,
         (LogValues.observe (runBuilderCalls (st, NewLogValuesBuilder) calls).1
            (runBuilderCalls (st, NewLogValuesBuilder) calls).2.Build).2.2.2.1
           ++ more.filterMap BuilderCall.debugArg,
         (LogValues.observe (runBuilderCalls (st, NewLogValuesBuilder) calls).1
            (runBuilderCalls (st, NewLogValuesBuilder) calls).2.Build).2.2.2.2
           ++ more.filterMap BuilderCall.errorArg)) := by
  refine ⟨rfl, ?_⟩
  have hwf := runBuilderCalls_WF calls st _ (LogValuesBuilder.WF_new st)
  obtain ⟨-, e0, -, -, -⟩ := runBuilderCalls_new_contents calls st
  obtain ⟨h1, h2, h3, h4, h5⟩ := runBuilderCalls_contents more _ _ hwf
  have happ : runBuilderCalls (st, NewLogValuesBuilder) (calls ++ more)
      = runBuilderCalls (runBuilderCalls (st, NewLogValuesBuilder) calls) more := by
    simp [runBuilderCalls, List.foldl_append]
  rw [happ]
  simp only [LogValues.observe, LogValuesBuilder.Build, LogValues.Msg, LogValues.Err,
    LogValues.InfoValues, LogValues.DebugValues, LogValues.ErrorValues, h1, h2, h3, h4, h5, e0]

/-! ## The tracing format is set once -/

theorem isNil_zero_interface {T : Type} [GoType T] (hT : InterfaceType T) :
    isNil (GoType.zero : T) = Run.panic := by
  have h : GoType.kindOf (GoType.zero : T) = none := (hT _).2 rfl
  simp [isNil, h]

theorem HandlerCall.run_interface {T : Type} [GoType T] (hT : InterfaceType T)
    (w w1 : Store T × ObservabilityContext T) (c : HandlerCall T)
    (hz : w.2.tracingFormat = GoType.zero) (h : (c.run w).result = some w1) :
    w1.2.tracingFormat = GoType.zero := by
  have hf := HandlerCall.run_frame w w1 c h
  cases hc : c.isSetTracingFormat with
  | false => rw [hf.2.2.1 hc, hz]
  | true =>
    cases c with
    | SetTracingFormat f =>
      simp only [HandlerCall.run, Run.bind_result, Run.pure_result] at h
      obtain ⟨r, hr, rfl⟩ := h
      have hp := isNil_zero_interface hT
      rw [← hz] at hp
      rcases SetTracingFormat_result w.2 f r hr with ⟨hn, -⟩ | ⟨hn, -⟩
      · rw [hp] at hn
        have hr2 : (none : Option Bool) = some false := congrArg Run.result hn
        simp at hr2
      · rw [hp] at hn
        have hr2 : (none : Option Bool) = some true := congrArg Run.result hn
        simp at hr2
    | _ => simp [HandlerCall.isSetTracingFormat] at hc

theorem formatHistory_set {T : Type} [GoType T] (cs : List (HandlerCall T))
    (w : Store T × ObservabilityContext T) (hset : isNil w.2.tracingFormat = pure false) :
    ∃ m, formatHistory w cs = List.replicate m w.2.tracingFormat := by
  induction cs generalizing w with
  | nil => exact ⟨0, rfl⟩
  | cons c cs ih =>
    cases hr : (c.run w).result with
    | none => exact ⟨0, by simp [formatHistory, hr]⟩
    | some w1 =>
      have e1 : w1.2.tracingFormat = w.2.tracingFormat :=
        (HandlerCall.run_frame w w1 c hr).2.2.2 hset
      obtain ⟨m, hm⟩ := ih w1 (by rw [e1]; exact hset)
      refine ⟨m + 1, ?_⟩
      simp only [formatHistory, hr, hm, e1, List.replicate_succ]

theorem formatHistory_unset {T : Type} [GoType T]
    (hT : (∃ k, ConcreteType T k) ∨ InterfaceType T) (cs : List (HandlerCall T))
    (w : Store T × ObservabilityContext T) (hz : w.2.tracingFormat = GoType.zero) :
    ∃ n m v, GoType.zero :: formatHistory w cs
      = List.replicate n (GoType.zero : T) ++ List.replicate m v := by
  induction cs generalizing w with
  | nil => exact ⟨1, 0, GoType.zero, rfl⟩
  | cons c cs ih =>
    cases hr : (c.run w).result with
    | none => exact ⟨1, 0, GoType.zero, by simp [formatHistory, hr]⟩
    | some w1 =>
      by_cases hv : w1.2.tracingFormat = GoType.zero
      · obtain ⟨n, m, v, hnm⟩ := ih w1 hv
        refine ⟨n + 1, m, v, ?_⟩
        simp only [formatHistory, hr, hv, List.replicate_succ, List.cons_append, hnm]
      · have hset : isNil w1.2.tracingFormat = pure false := by
          rcases hT with ⟨k, hk⟩ | hi
          · exact isNil_of_ne_zero hk _ hv
          · exact absurd (HandlerCall.run_interface hi w w1 c hz hr) hv
        obtain ⟨m, hm⟩ := formatHistory_set cs w1 hset
        refine ⟨1, m + 1, w1.2.tracingFormat, ?_⟩
        simp only [formatHistory, hr, hm, List.replicate_succ, List.replicate_zero,
          List.cons_append, List.nil_append]

/-- C15: for every context and every finite sequence of handler calls on it, the
tracing formats stored from the creation of the context on, call after call, are
the zero value some number of times and then one value `v` throughout: the
stored format leaves the zero value at most once, and once it is not the zero
value no later call changes it. The attribute type is any type that is not an
interface type, or an interface type. -/
theorem tracingFormat_set_once {T : Type} [GoType T]
    (hT : (∃ k, ConcreteType T k) ∨ InterfaceType T) (st : Store T) (ctx : Context)
    (svc : String) (lg : Option Logger) (cs : List (HandlerCall T)) :
    ∃ n m v,
      (NewObservabilityHandler ctx svc lg : ObservabilityContext T).tracingFormat ::
          formatHistory (st, NewObservabilityHandler ctx svc lg) cs
        = List.replicate n (GoType.zero : T) ++ List.replicate m v :=
  formatHistory_unset hT cs _ rfl

/-- Witness of C15: on the demo context `StartSpan`, two `SetTracingFormat` with
different setup functions and a `LogInfo`; the second format is never stored. -/
theorem tracingFormat_set_once_witness :
    ((∃ k, ConcreteType String k) ∨ InterfaceType String) ∧
    (demoFresh.tracingFormat ::
        formatHistory (Store.empty String, demoFresh)
          [HandlerCall.StartSpan demoTracer "op" [], HandlerCall.SetTracingFormat demoSetup,
           HandlerCall.SetTracingFormat (fun _ _ => "other"),
           HandlerCall.LogInfo ⟨"hello", none, Slice.null, Slice.null, Slice.null⟩ []]
      = ["", "", "tracing=abababababababababababababababab/cdcdcdcdcdcdcdcd",
         "tracing=abababababababababababababababab/cdcdcdcdcdcdcdcd",
         "tracing=abababababababababababababababab/cdcdcdcdcdcdcdcd"]) ∧
    (∃ n m v,
      demoFresh.tracingFormat ::
          formatHistory (Store.empty String, demoFresh)
            [HandlerCall.StartSpan demoTracer "op" [], HandlerCall.SetTracingFormat demoSetup,
             HandlerCall.SetTracingFormat (fun _ _ => "other"),
             HandlerCall.LogInfo ⟨"hello", none, Slice.null, Slice.null, Slice.null⟩ []]
        = List.replicate n (GoType.zero : String) ++ List.replicate m v) :=
  ⟨Or.inl ⟨Kind.String, concreteType_string⟩, by decide,
    tracingFormat_set_once (Or.inl ⟨Kind.String, concreteType_string⟩) (Store.empty String) ⟨0⟩
      "svc" (some demoLogger) _⟩

/-! ## `isNil` on pointer and interface types, and what depends on it -/

theorem interfaceType_boxed : InterfaceType Boxed := by
  intro v
  cases v with
  | mk dyn => cases dyn <;> simp [GoType.kindOf, GoType.zero]

theorem isNil_concrete {T : Type} [GoType T] {k : Kind} (hT : ConcreteType T k) (v : T) :
    isNil v = pure false ∨ isNil v = pure true := by
  simp only [isNil, hT.1 v]
  cases (GoType.isZero v && k != Kind.Ptr)
  · exact Or.inl rfl
  · exact Or.inr rfl

theorem SetTracingFormat_unset_spec {T : Type} [GoType T] (k : Kind) (hT : ConcreteType T k)
    (hk : k ≠ Kind.Ptr) (oc : ObservabilityContext T) (f : String → TraceValues → T)
    (hz : oc.tracingFormat = GoType.zero) :
    oc.SetTracingFormat f
        = ⟨[Effect.TracingSetup "tracing" oc.GetTraceValues.1],
            some ({ oc with tracingFormat := f "tracing" oc.GetTraceValues.1 }, none)⟩ ∧
    (oc.span = none → oc.GetTraceValues.1 = ⟨"", ""⟩) ∧
    (∀ sp, oc.span = some sp → oc.GetTraceValues.1 = ⟨oc.traceId, oc.spanId⟩) := by
  refine ⟨?_, fun h => ?_, fun sp h => ?_⟩
  · apply SetTracingFormat_of_unset
    rw [hz]
    exact isNil_zero hT hk
  · rw [GetTraceValues_unstarted oc h]
  · rw [GetTraceValues_started oc sp h]

/-- C11 at failing inputs. On a fresh context over a pointer type the tracing
format is unset, the zero value, and `SetTracingFormat` returns the error
"tracing format already set" without calling `tracingSetup` and stores nothing;
on a fresh context over an interface type it panics, again without calling
`tracingSetup`. Both come from `isNil`. For every attribute type that is neither
a pointer type nor an interface type the claim holds: on an unset format
`SetTracingFormat(f)` calls `f` once, with "tracing" and the trace values held,
which are the zero ones when no span was started, stores the result and returns
no error. -/
theorem SetTracingFormat_unset_pointer_fails :
    (demoFreshPointer.tracingFormat = GoType.zero ∧
      demoFreshPointer.SetTracingFormat (fun _ _ => ⟨some 1⟩)
        = ⟨[], some (demoFreshPointer, some "tracing format already set")⟩) ∧
    ((NewObservabilityHandler ⟨0⟩ "svc" (some demoLogger) :
          ObservabilityContext Boxed).SetTracingFormat (fun _ _ => ⟨some "t"⟩)
        = ⟨[], none⟩) ∧
    (∀ (T : Type) [GoType T] (k : Kind), ConcreteType T k → k ≠ Kind.Ptr →
      ∀ (oc : ObservabilityContext T) (f : String → TraceValues → T),
        oc.tracingFormat = GoType.zero →
        oc.SetTracingFormat f
            = ⟨[Effect.TracingSetup "tracing" oc.GetTraceValues.1],
                some ({ oc with tracingFormat := f "tracing" oc.GetTraceValues.1 }, none)⟩ ∧
        (oc.span = none → oc.GetTraceValues.1 = ⟨"", ""⟩) ∧
        (∀ sp, oc.span = some sp → oc.GetTraceValues.1 = ⟨oc.traceId, oc.spanId⟩)) := by
  refine ⟨⟨rfl, rfl⟩, rfl, ?_⟩
  intro T _ k hT hk oc f hz
  exact SetTracingFormat_unset_spec k hT hk oc f hz

theorem CreateLogBuilder_spec {T : Type} [GoType T] (k : Kind) (hT : ConcreteType T k)
    (st : Store T) (oc : ObservabilityContext T) :
    ∃ st2 : Store T,
      HandlerCall.run (st, oc) HandlerCall.CreateLogBuilder = ⟨[], some (st2, oc)⟩ ∧
      oc.CreateLogBuilder st = ⟨[], some (st2, NewLogBuilder)⟩ ∧
      (∀ t : Slice, t.Live st → st2.read t = st.read t) ∧
      NewLogBuilder.CreateLogValuesBuilder.Build.observe st2 = ("", none, [], [], []) := by
  have hobs : ∀ s : Store T,
      NewLogBuilder.CreateLogValuesBuilder.Build.observe s = ("", none, [], [], []) := by
    intro s
    simp [LogValues.observe, LogBuilder.CreateLogValuesBuilder, NewLogValuesBuilder,
      LogValuesBuilder.Build, LogValues.Msg, LogValues.Err, LogValues.InfoValues,
      LogValues.DebugValues, LogValues.ErrorValues, Store.read, Slice.null]
  have hfrozen : ∀ t : Slice, t.Live st →
      (runBuilderCalls (st, NewLogValuesBuilder)
        [BuilderCall.WithDebugValue oc.tracingFormat, BuilderCall.WithErrorValue oc.tracingFormat,
         BuilderCall.WithInfoValue oc.tracingFormat]).1.read t = st.read t := by
    intro t ht
    apply runBuilderCalls_frozen _ _ _ _ (LogValuesBuilder.WF_new st)
    refine ⟨ht, ?_, ?_, ?_⟩ <;>
      · intro h
        simp [NewLogValuesBuilder, Slice.null] at h
  cases hs : oc.span with
  | none =>
    refine ⟨st, ?_, ?_, fun _ _ => rfl, hobs st⟩
    · simp [HandlerCall.run, ObservabilityContext.CreateLogBuilder, hs, Bind.bind, Run.bind,
        Pure.pure]
    · simp [ObservabilityContext.CreateLogBuilder, hs, Pure.pure]
  | some sp =>
    rcases isNil_concrete hT oc.tracingFormat with hn | hn
    · refine ⟨_, ?_, ?_, hfrozen, hobs _⟩
      · simp only [HandlerCall.run, ObservabilityContext.CreateLogBuilder, hs, hn]
        rfl
      · simp only [ObservabilityContext.CreateLogBuilder, hs, hn]
        rfl
    · refine ⟨st, ?_, ?_, fun _ _ => rfl, hobs st⟩
      · simp only [HandlerCall.run, ObservabilityContext.CreateLogBuilder, hs, hn]
        rfl
      · simp only [ObservabilityContext.CreateLogBuilder, hs, hn]
        rfl

/-- C14 at a failing input. On a context over an interface type on which
`StartSpan` has been called, `CreateLogBuilder` panics, in `isNil` on the nil
tracing format, and returns no builder. For every attribute type that is not an
interface type the claim holds in every state: `CreateLogBuilder` returns, calls
nothing, leaves the context as it was and what is in the store readable as
before, and the `LogBuilder` it returns gives with `CreateLogValuesBuilder()` a
builder whose `Build()` has empty message, nil error and three empty lists,
whether the tracing format is set or not. -/
theorem CreateLogBuilder_interface_panics :
    (demoStartedBoxed.span ≠ none ∧
      demoStartedBoxed.CreateLogBuilder (Store.empty Boxed) = ⟨[], none⟩) ∧
    (∀ (T : Type) [GoType T] (k : Kind), ConcreteType T k →
      ∀ (st : Store T) (oc : ObservabilityContext T),
        ∃ st2 : Store T,
          HandlerCall.run (st, oc) HandlerCall.CreateLogBuilder = ⟨[], some (st2, oc)⟩ ∧
          oc.CreateLogBuilder st = ⟨[], some (st2, NewLogBuilder)⟩ ∧
          (∀ t : Slice, t.Live st → st2.read t = st.read t) ∧
          NewLogBuilder.CreateLogValuesBuilder.Build.observe st2 = ("", none, [], [], [])) := by
  refine ⟨⟨by decide, ?_⟩, ?_⟩
  · rfl
  · intro T _ k hT st oc
    exact CreateLogBuilder_spec k hT st oc

/-! ## The error carried by a payload -/

theorem BuilderCall.run_err {T : Type} (w : Store T × LogValuesBuilder) (c : BuilderCall T) :
    (c.run w).2.err = w.2.err := by
  cases c <;> rfl

theorem runBuilderCalls_err {T : Type} (calls : List (BuilderCall T))
    (w : Store T × LogValuesBuilder) : (runBuilderCalls w calls).2.err = w.2.err := by
  induction calls generalizing w with
  | nil => rfl
  | cons c cs ih =>
    have h := ih (c.run w)
    simp only [runBuilderCalls, List.foldl_cons] at h ⊢
    rw [h, BuilderCall.run_err]

theorem FactoryLogValuesBuilder_err {T : Type} (st : Store T) (os : LogValuesOptions T) :
    (FactoryLogValuesBuilder st os).2.err = none :=
  (factoryFold_spec os st _ (LogValuesBuilder.WF_new st)).2.2.1

/-- C21: every value obtained by `Build()` from a builder that was created by
`NewLogValuesBuilder`, by `FactoryLogValuesBuilder` or by a `LogBuilder` method
and then changed by any calls of `WithMsg`, `WithInfoValue`, `WithDebugValue`
and `WithErrorValue` has `Err()` nil; so `LogError` with such a payload on a
started context gives the span a nil error to record. -/
theorem Built_payload_has_nil_error {T : Type} (st : Store T) (os : LogValuesOptions T)
    (calls : List (BuilderCall T)) (lb : LogBuilder) :
    ((runBuilderCalls (st, NewLogValuesBuilder) calls).2.Build.Err = none ∧
      (runBuilderCalls (FactoryLogValuesBuilder st os) calls).2.Build.Err = none ∧
      (runBuilderCalls (st, lb.CreateLogValuesBuilder) calls).2.Build.Err = none ∧
      (runBuilderCalls (lb.FactoryLogValuesBuilder st os) calls).2.Build.Err = none) ∧
    (∀ (U : Type) (oc : ObservabilityContext U) (sp : Span) (opts : List EventOption),
      oc.span = some sp →
      ((oc.LogError (runBuilderCalls (st, NewLogValuesBuilder) calls).2.Build opts).effects.head?
          = some (Effect.RecordError sp none (oc.traceOptions ++ opts)) ∧
        (oc.LogError (runBuilderCalls (FactoryLogValuesBuilder st os) calls).2.Build
            opts).effects.head?
          = some (Effect.RecordError sp none (oc.traceOptions ++ opts)))) := by
  have e1 : (runBuilderCalls (st, NewLogValuesBuilder) calls).2.Build.Err = none := by
    show (runBuilderCalls (st, NewLogValuesBuilder) calls).2.err = none
    rw [runBuilderCalls_err]
    rfl
  have e2 : (runBuilderCalls (FactoryLogValuesBuilder st os) calls).2.Build.Err = none := by
    show (runBuilderCalls (FactoryLogValuesBuilder st os) calls).2.err = none
    rw [runBuilderCalls_err]
    exact FactoryLogValuesBuilder_err st os
  refine ⟨⟨e1, e2, e1, e2⟩, ?_⟩
  intro U oc sp opts hs
  have key : ∀ lv : LogValues, lv.Err = none →
      (oc.LogError lv opts).effects.head?
        = some (Effect.RecordError sp none (oc.traceOptions ++ opts)) := by
    intro lv hlv
    cases hl : oc.logger <;>
      simp [ObservabilityContext.LogError, spanRecordError, loggerCall, withTraceOptions, hs,
        hl, hlv, Bind.bind, Run.bind, Run.emit, Run.panic]
  exact ⟨key _ e1, key _ e2⟩

/-- The test `TestLogValues_Err` builds its payload with a struct literal inside
the package; through the exported methods the error stays nil whatever is
called. -/
theorem nil_error_after_calls_test :
    (runBuilderCalls (Store.empty String, NewLogValuesBuilder)
      [.WithMsg "oops", .WithErrorValue "e1", .WithInfoValue "i1"]).2.Build.Err = none := by
  decide

/-! ## `isNil` -/

/-- C24 at failing inputs. `isNil` returns false for the nil pointer, the zero
value of a pointer type; it panics for the nil value of an interface type; and
it returns true for an interface value that holds the empty string, which is not
the zero value of the interface type. For every type that is neither a pointer
type nor an interface type the claim holds: `isNil` returns, and it returns true
exactly for the zero value. -/
theorem isNil_nil_pointer_is_false :
    (isNil (GoType.zero : Pointer) = pure false) ∧
    (isNil (GoType.zero : Boxed) = Run.panic) ∧
    (isNil (⟨some ""⟩ : Boxed) = pure true ∧ (⟨some ""⟩ : Boxed) ≠ GoType.zero) ∧
    (∀ (T : Type) [GoType T] (k : Kind), ConcreteType T k → k ≠ Kind.Ptr →
      ∀ v : T, (isNil v = pure true ∨ isNil v = pure false) ∧
        (isNil v = pure true ↔ v = GoType.zero)) := by
  refine ⟨rfl, rfl, ⟨rfl, by decide⟩, ?_⟩
  intro T _ k hT hk v
  have hne : (pure true : Run Bool) ≠ pure false := by
    intro hc
    have hr2 : some true = some false := congrArg Run.result hc
    simp at hr2
  by_cases hv : v = GoType.zero
  · subst hv
    have h := isNil_zero hT hk
    exact ⟨Or.inl h, fun _ => rfl, fun _ => h⟩
  · have h := isNil_of_ne_zero hT v hv
    refine ⟨Or.inr h, fun h2 => ?_, fun h2 => absurd h2 hv⟩
    rw [h] at h2
    exact absurd h2.symm hne

/-! ## The log methods leave the context alone -/

theorem Log_methods_effects {T : Type} (oc : ObservabilityContext T) (sp : Span)
    (lg : Logger) (hs : oc.span = some sp) (hl : oc.logger = some lg) (lv : LogValues)
    (opts : List EventOption) :
    oc.LogInfo lv opts
      = ⟨[Effect.AddEvent sp lv.Msg (oc.traceOptions ++ opts), Effect.LogInfo lg lv], some ()⟩ ∧
    oc.LogError lv opts
      = ⟨[Effect.RecordError sp lv.Err (oc.traceOptions ++ opts), Effect.LogError lg lv],
          some ()⟩ ∧
    oc.LogDebug lv opts
      = ⟨[Effect.AddEvent sp lv.Msg (oc.traceOptions ++ opts), Effect.LogDebug lg lv], some ()⟩ ∧
    oc.LogInfoContext lv opts
      = ⟨[Effect.AddEvent sp lv.Msg (oc.traceOptions ++ opts),
          Effect.LogInfoContext lg oc.ctx lv], some ()⟩ ∧
    oc.LogErrorContext lv opts
      = ⟨[Effect.RecordError sp lv.Err (oc.traceOptions ++ opts),
          Effect.LogErrorContext lg oc.ctx lv], some ()⟩ ∧
    oc.LogDebugContext lv opts
      = ⟨[Effect.AddEvent sp lv.Msg (oc.traceOptions ++ opts),
          Effect.LogDebugContext lg oc.ctx lv], some ()⟩ := by
  simp [ObservabilityContext.LogInfo, ObservabilityContext.LogError, ObservabilityContext.LogDebug,
    ObservabilityContext.LogInfoContext, ObservabilityContext.LogErrorContext,
    ObservabilityContext.LogDebugContext, spanAddEvent, spanRecordError, loggerCall,
    withTraceOptions, hs, hl, Bind.bind, Run.bind, Run.emit]

theorem HandlerCall.run_log {T : Type} [GoType T] (st : Store T) (oc : ObservabilityContext T)
    (sp : Span) (lg : Logger) (hs : oc.span = some sp) (hl : oc.logger = some lg)
    (c : HandlerCall T) (hc : c.isLog = true) :
    ∃ effs, c.run (st, oc) = ⟨effs, some (st, oc)⟩ ∧
      effs.filterMap Effect.recordedOptions = [oc.traceOptions ++ c.logOpts] := by
  cases c with
  | StartSpan tr name opts => simp [HandlerCall.isLog] at hc
  | GetTraceValues => simp [HandlerCall.isLog] at hc
  | SetTracingFormat f => simp [HandlerCall.isLog] at hc
  | CreateLogBuilder => simp [HandlerCall.isLog] at hc
  | LogInfo lv opts =>
    refine ⟨[Effect.AddEvent sp lv.Msg (oc.traceOptions ++ opts), Effect.LogInfo lg lv], ?_, rfl⟩
    simp only [HandlerCall.run, (Log_methods_effects oc sp lg hs hl lv opts).1]
    rfl
  | LogError lv opts =>
    refine ⟨[Effect.RecordError sp lv.Err (oc.traceOptions ++ opts), Effect.LogError lg lv], ?_, rfl⟩
    simp only [HandlerCall.run, (Log_methods_effects oc sp lg hs hl lv opts).2.1]
    rfl
  | LogDebug lv opts =>
    refine ⟨[Effect.AddEvent sp lv.Msg (oc.traceOptions ++ opts), Effect.LogDebug lg lv], ?_, rfl⟩
    simp only [HandlerCall.run, (Log_methods_effects oc sp lg hs hl lv opts).2.2.1]
    rfl
  | LogInfoContext lv opts =>
    refine ⟨[Effect.AddEvent sp lv.Msg (oc.traceOptions ++ opts),
      Effect.LogInfoContext lg oc.ctx lv], ?_, rfl⟩
    simp only [HandlerCall.run, (Log_methods_effects oc sp lg hs hl lv opts).2.2.2.1]
    rfl
  | LogErrorContext lv opts =>
    refine ⟨[Effect.RecordError sp lv.Err (oc.traceOptions ++ opts),
      Effect.LogErrorContext lg oc.ctx lv], ?_, rfl⟩
    simp only [HandlerCall.run, (Log_methods_effects oc sp lg hs hl lv opts).2.2.2.2.1]
    rfl
  | LogDebugContext lv opts =>
    refine ⟨[Effect.AddEvent sp lv.Msg (oc.traceOptions ++ opts),
      Effect.LogDebugContext lg oc.ctx lv], ?_, rfl⟩
    simp only [HandlerCall.run, (Log_methods_effects oc sp lg hs hl lv opts).2.2.2.2.2]
    rfl

theorem runHandlerCalls_logs {T : Type} [GoType T] (cs : List (HandlerCall T)) (st : Store T)
    (oc : ObservabilityContext T) (sp : Span) (lg : Logger) (hs : oc.span = some sp)
    (hl : oc.logger = some lg) (hcs : ∀ c ∈ cs, c.isLog = true) :
    ∃ effs, runHandlerCalls (st, oc) cs = ⟨effs, some (st, oc)⟩ ∧
      effs.filterMap Effect.recordedOptions = cs.map (fun c => oc.traceOptions ++ c.logOpts) := by
  induction cs with
  | nil => exact ⟨[], rfl, rfl⟩
  | cons c cs ih =>
    obtain ⟨e1, h1, r1⟩ := HandlerCall.run_log st oc sp lg hs hl c (hcs c (List.mem_cons_self _ _))
    obtain ⟨e2, h2, r2⟩ := ih (fun d hd => hcs d (List.mem_cons_of_mem _ hd))
    refine ⟨e1 ++ e2, ?_, ?_⟩
    · show Run.bind (c.run (st, oc)) (fun w1 => runHandlerCalls w1 cs) = _
      rw [h1]
      simp only [Run.bind, h2]
    · rw [List.filterMap_append, r1, r2]
      rfl

theorem Store.appendAll_spec {T : Type} (st : Store T) (s : Slice) (xs : List T)
    (hs : s.Owned st) :
    (st.appendAll s xs).1.read (st.appendAll s xs).2 = st.read s ++ xs ∧
    (st.appendAll s xs).1.read s = st.read s ∧
    s.Owned (st.appendAll s xs).1 := by
  obtain ⟨hle, hcap⟩ := hs
  unfold Store.appendAll
  split
  · next h =>
    by_cases h0 : 0 < s.cap
    · have hc := hcap h0
      refine ⟨?_, ?_, hle, fun _ => ⟨hc.1, ?_⟩⟩
      · simp only [Store.read, if_true]
        rw [List.append_assoc, List.take_append_eq_append_take]
        simp only [List.take_take, List.length_take, Nat.min_eq_left hc.2]
        rw [Nat.min_eq_right (by omega), Nat.add_sub_cancel_left,
          List.take_append_of_le_length (Nat.le_refl _), List.take_length]
      · simp only [Store.read, if_true]
        rw [List.append_assoc, List.take_append_of_le_length (by simp; omega)]
        simp [List.take_take]
      · simp
        omega
    · have hc0 : s.cap = 0 := by omega
      have hl0 : s.len = 0 := by omega
      have hx : xs = [] := by
        have : xs.length = 0 := by omega
        exact List.length_eq_zero.mp this
      subst hx
      refine ⟨?_, ?_, hle, fun hp => absurd hp h0⟩
      · simp [Store.read, hl0]
      · simp [Store.read, hl0]
  · next h =>
    refine ⟨?_, ?_, hle, fun hp => ?_⟩
    · simp only [Store.read, if_true]
      apply List.take_of_length_le
      simp
    · simp only [Store.read]
      split
      · next he =>
        by_cases h0 : 0 < s.cap
        · have := (hcap h0).1
          omega
        · have hl0 : s.len = 0 := by omega
          simp [hl0]
      · rfl
    · have hc := hcap hp
      have hne : s.arr ≠ st.next := by omega
      refine ⟨by simp; omega, ?_⟩
      simp [hne, hc.2]

theorem recordWithTraceOptions_spec (optss : List (List EventOption)) (st : Store EventOption)
    (baseOpts : Slice) (hs : baseOpts.Owned st) :
    (recordWithTraceOptions st baseOpts optss).1 = optss.map (fun o => st.read baseOpts ++ o) ∧
    (recordWithTraceOptions st baseOpts optss).2.read baseOpts = st.read baseOpts := by
  induction optss generalizing st with
  | nil => exact ⟨rfl, rfl⟩
  | cons o rest ih =>
    obtain ⟨a1, a2, a3⟩ := st.appendAll_spec baseOpts o hs
    obtain ⟨i1, i2⟩ := ih _ a3
    simp only [recordWithTraceOptions, withTraceOptionsSlice, List.map_cons] at i1 i2 ⊢
    refine ⟨?_, ?_⟩
    · rw [i1, a1, a2]
    · rw [i2, a2]

/-- C23: on a started context with a logger, any log calls, one after the
other, leave the context as it was, with its base trace options, `traceId`,
`spanId`, span, context handle and tracing format, and leave the store; and the
options given to the span by each call are the base trace options followed by
the options of that call alone, none of an earlier call. This also holds when
the base options are a slice whose backing array has room: on the slice model
every call records the base options followed by its own, and the base options
read the same afterwards. -/
theorem Log_calls_keep_context {T : Type} [GoType T] (st : Store T)
    (oc : ObservabilityContext T) (sp : Span) (lg : Logger) (hs : oc.span = some sp)
    (hl : oc.logger = some lg) (cs : List (HandlerCall T)) (hcs : ∀ c ∈ cs, c.isLog = true)
    (so : Store EventOption) (baseOpts : Slice) (hbase : baseOpts.Owned so)
    (optss : List (List EventOption)) :
    (runHandlerCalls (st, oc) cs).result.map (fun w => w.2) = some oc ∧
    ((runHandlerCalls (st, oc) cs).effects.filterMap Effect.recordedOptions
      = cs.map (fun c => oc.traceOptions ++ c.logOpts)) ∧
    ((recordWithTraceOptions so baseOpts optss).1
      = optss.map (fun o => so.read baseOpts ++ o)) ∧
    ((recordWithTraceOptions so baseOpts optss).2.read baseOpts = so.read baseOpts) := by
  obtain ⟨effs, h1, h2⟩ := runHandlerCalls_logs cs st oc sp lg hs hl hcs
  obtain ⟨h3, h4⟩ := recordWithTraceOptions_spec optss so baseOpts hbase
  rw [h1]
  exact ⟨rfl, h2, h3, h4⟩

/-- Witness of C23: two log calls with different options on the started demo
context, and base options of length one in an array with room for three. -/
theorem Log_calls_keep_context_witness :
    (demoStarted.span = some (demoTracer.Start ⟨0⟩ "svc" "op" []).2 ∧
      demoStarted.logger = some demoLogger ∧
      (∀ c ∈ [HandlerCall.LogInfo (T := String) ⟨"a", none, Slice.null, Slice.null, Slice.null⟩
                [EventOption.WithStackTrace true],
              HandlerCall.LogError ⟨"b", none, Slice.null, Slice.null, Slice.null⟩
                [EventOption.WithTimestamp 5]], c.isLog = true) ∧
      Slice.Owned (⟨fun a => if a = 0 then [EventOption.WithStackTrace false] else [], 1,
        fun c => 2 * c⟩ : Store EventOption) ⟨0, 1, 3⟩) ∧
    ((runHandlerCalls (Store.empty String, demoStarted)
        [HandlerCall.LogInfo ⟨"a", none, Slice.null, Slice.null, Slice.null⟩
          [EventOption.WithStackTrace true],
         HandlerCall.LogError ⟨"b", none, Slice.null, Slice.null, Slice.null⟩
          [EventOption.WithTimestamp 5]]).effects.filterMap Effect.recordedOptions
      = [demoStarted.traceOptions ++ [EventOption.WithStackTrace true],
         demoStarted.traceOptions ++ [EventOption.WithTimestamp 5]]) ∧
    ((recordWithTraceOptions
        (⟨fun a => if a = 0 then [EventOption.WithStackTrace false] else [], 1,
          fun c => 2 * c⟩ : Store EventOption) ⟨0, 1, 3⟩
        [[EventOption.WithStackTrace true, EventOption.WithTimestamp 1],
         [EventOption.WithTimestamp 5]]).1
      = [[EventOption.WithStackTrace false, EventOption.WithStackTrace true,
          EventOption.WithTimestamp 1],
         [EventOption.WithStackTrace false, EventOption.WithTimestamp 5]]) :=
  ⟨⟨rfl, rfl, by decide, by simp [Slice.Owned]⟩,
    (Log_calls_keep_context (Store.empty String) demoStarted _ demoLogger rfl rfl
      [HandlerCall.LogInfo ⟨"a", none, Slice.null, Slice.null, Slice.null⟩
        [EventOption.WithStackTrace true],
       HandlerCall.LogError ⟨"b", none, Slice.null, Slice.null, Slice.null⟩
        [EventOption.WithTimestamp 5]] (by decide)
      (⟨fun a => if a = 0 then [EventOption.WithStackTrace false] else [], 1,
        fun c => 2 * c⟩ : Store EventOption) ⟨0, 1, 3⟩ (by simp [Slice.Owned])
      [[EventOption.WithStackTrace true, EventOption.WithTimestamp 1],
       [EventOption.WithTimestamp 5]]).2.1,
    (Log_calls_keep_context (Store.empty String) demoStarted _ demoLogger rfl rfl
      [HandlerCall.LogInfo ⟨"a", none, Slice.null, Slice.null, Slice.null⟩
        [EventOption.WithStackTrace true],
       HandlerCall.LogError ⟨"b", none, Slice.null, Slice.null, Slice.null⟩
        [EventOption.WithTimestamp 5]] (by decide)
      (⟨fun a => if a = 0 then [EventOption.WithStackTrace false] else [], 1,
        fun c => 2 * c⟩ : Store EventOption) ⟨0, 1, 3⟩ (by simp [Slice.Owned])
      [[EventOption.WithStackTrace true, EventOption.WithTimestamp 1],
       [EventOption.WithTimestamp 5]]).2.2.1⟩

/-! ## The tracing format after a later `StartSpan` -/

/-- C22: take a started context whose tracing format is unset and an attribute
type that is neither a pointer nor an interface type; `SetTracingFormat(f)`
stores `f("tracing", tv)` for the trace values `tv` of the span held, and let
this not be the zero value. After any further handler calls, a later `StartSpan`
sets `traceId`, `spanId` and the base trace options to those of the new span and
leaves the stored tracing format as it was; `SetTracingFormat` still fails; and
`GetTraceValues` returns the identifiers of the new span, so that the stored
format, computed from the earlier ones, differs from the format of the current
trace values whenever `f` tells the two apart. -/
theorem tracingFormat_stale_after_StartSpan {T : Type} [GoType T] (k : Kind)
    (hT : ConcreteType T k) (hk : k ≠ Kind.Ptr) (st : Store T) (oc1 : ObservabilityContext T)
    (sp1 : Span) (hs : oc1.span = some sp1) (hz : oc1.tracingFormat = GoType.zero)
    (f : String → TraceValues → T) (hv : f "tracing" oc1.GetTraceValues.1 ≠ GoType.zero)
    (mid : List (HandlerCall T)) (w : Store T × ObservabilityContext T)
    (hrun : (runHandlerCalls
        (st, { oc1 with tracingFormat := f "tracing" oc1.GetTraceValues.1 }) mid).result = some w)
    (tr2 : Tracer) (name2 : String) (opts2 : List SpanStartOption) :
    (oc1.GetTraceValues.1 = ⟨oc1.traceId, oc1.spanId⟩ ∧
      oc1.SetTracingFormat f
        = ⟨[Effect.TracingSetup "tracing" oc1.GetTraceValues.1],
            some ({ oc1 with tracingFormat := f "tracing" oc1.GetTraceValues.1 }, none)⟩) ∧
    ((w.2.StartSpan tr2 name2 opts2).1.tracingFormat = f "tracing" oc1.GetTraceValues.1 ∧
      (w.2.StartSpan tr2 name2 opts2).1.traceId
        = (tr2.Start w.2.ctx w.2.serviceName name2 opts2).2.spanContext.traceID.String ∧
      (w.2.StartSpan tr2 name2 opts2).1.spanId
        = (tr2.Start w.2.ctx w.2.serviceName name2 opts2).2.spanContext.spanID.String ∧
      (w.2.StartSpan tr2 name2 opts2).1.traceOptions
        = [EventOption.WithAttributes
            [⟨"traceId",
              (tr2.Start w.2.ctx w.2.serviceName name2 opts2).2.spanContext.traceID.String⟩,
             ⟨"spanId",
              (tr2.Start w.2.ctx w.2.serviceName name2 opts2).2.spanContext.spanID.String⟩]]) ∧
    (∀ g : String → TraceValues → T,
      (w.2.StartSpan tr2 name2 opts2).1.SetTracingFormat g
        = ⟨[], some ((w.2.StartSpan tr2 name2 opts2).1, some "tracing format already set")⟩) ∧
    ((w.2.StartSpan tr2 name2 opts2).1.GetTraceValues
      = (⟨(tr2.Start w.2.ctx w.2.serviceName name2 opts2).2.spanContext.traceID.String,
          (tr2.Start w.2.ctx w.2.serviceName name2 opts2).2.spanContext.spanID.String⟩, none)) ∧
    (f "tracing" (w.2.StartSpan tr2 name2 opts2).1.GetTraceValues.1
        ≠ f "tracing" oc1.GetTraceValues.1 →
      (w.2.StartSpan tr2 name2 opts2).1.tracingFormat
        ≠ f "tracing" (w.2.StartSpan tr2 name2 opts2).1.GetTraceValues.1) := by
  have hset : isNil (f "tracing" oc1.GetTraceValues.1) = pure false := isNil_of_ne_zero hT _ hv
  have hkeep : w.2.tracingFormat = f "tracing" oc1.GetTraceValues.1 :=
    runHandlerCalls_keep_format mid _ w hrun (Or.inr hset)
  have hfmt : (w.2.StartSpan tr2 name2 opts2).1.tracingFormat
      = f "tracing" oc1.GetTraceValues.1 := hkeep
  refine ⟨⟨by rw [GetTraceValues_started oc1 sp1 hs], ?_⟩, ⟨hfmt, rfl, rfl, rfl⟩, ?_, rfl, ?_⟩
  · apply SetTracingFormat_of_unset
    rw [hz]
    exact isNil_zero hT hk
  · intro g
    apply SetTracingFormat_of_set
    rw [hfmt]
    exact hset
  · intro hne
    rw [hfmt]
    exact fun h => hne h.symm

/-- Witness of C22: the demo context, format set after `StartSpan("op")`, then a
`LogInfo` and a second `StartSpan` with a tracer that gives other identifiers. -/
theorem tracingFormat_stale_after_StartSpan_witness :
    (ConcreteType String Kind.String ∧ Kind.String ≠ Kind.Ptr ∧
      demoStarted.span = some (demoTracer.Start ⟨0⟩ "svc" "op" []).2 ∧
      demoStarted.tracingFormat = GoType.zero ∧
      demoSetup "tracing" demoStarted.GetTraceValues.1 ≠ GoType.zero ∧
      (runHandlerCalls (Store.empty String, demoFormatted)
          [HandlerCall.LogInfo ⟨"hello", none, Slice.null, Slice.null, Slice.null⟩ []]).result
        = some (Store.empty String, demoFormatted)) ∧
    ((demoFormatted.StartSpan demoTracer2 "next" []).1.tracingFormat
        = "tracing=abababababababababababababababab/cdcdcdcdcdcdcdcd" ∧
      (demoFormatted.StartSpan demoTracer2 "next" []).1.GetTraceValues
        = (⟨"12121212121212121212121212121212", "3434343434343434"⟩, none)) ∧
    ((demoFormatted.StartSpan demoTracer2 "next" []).1.tracingFormat
      = demoSetup "tracing" demoStarted.GetTraceValues.1) :=
  ⟨⟨concreteType_string, by decide, rfl, rfl, by decide, rfl⟩, ⟨by decide, by decide⟩,
    (tracingFormat_stale_after_StartSpan Kind.String concreteType_string (by decide)
      (Store.empty String) demoStarted _ rfl rfl demoSetup (by decide)
      [HandlerCall.LogInfo ⟨"hello", none, Slice.null, Slice.null, Slice.null⟩ []]
      (Store.empty String, demoFormatted) rfl demoTracer2 "next" []).2.1.1⟩

end Observability
